import Mathlib

/-!
Verification of the two map-reduce pipelines of `Project-Mapreduce`
(`mapreduce/temperature_analysis.py` and `mapreduce/precipitation_analysis.py`).

Python strings are modelled as `List Char`, Python floats as exact rationals
(the spec fixes round-half-to-even decimal rounding), Python dict payloads as
typed records, and the string-vs-dict distinction of emitted values as small
sum types.  `csv.reader` on the unquoted weather lines is modelled as a comma
split, and `float(...)` literals as plain decimal numerals (sign, digits,
optional fraction), which covers every value the pipelines produce or consume.
-/

/-- Python string, as its sequence of characters. -/
abbrev PyStr := List Char

/-- The reserved error key `"ERROR"` both jobs route bad records to. -/
def sERROR : PyStr := "ERROR".data

/-- Header detection string: `line.startswith('time,temperature')`. -/
def headerPre : PyStr := "time,temperature".data

/-- Python `str.split(sep)` for a single-character separator:
`"a__b".split('_') == ['a', '', 'b']`, `"".split('_') == ['']`. -/
def pysplit (sep : Char) : List Char → List (List Char)
  | [] => [[]]
  | c :: cs =>
    if c = sep then [] :: pysplit sep cs
    else
      match pysplit sep cs with
      | t :: ts => (c :: t) :: ts
      | [] => [[c]]

/-- Decimal digit character, as produced by Python `str` of a digit. -/
def digitChar : ℕ → Char
  | 0 => '0' | 1 => '1' | 2 => '2' | 3 => '3' | 4 => '4'
  | 5 => '5' | 6 => '6' | 7 => '7' | 8 => '8' | 9 => '9'
  | _ => '*'

/-- Fuel-driven worker for decimal printing (fuel keeps it structurally
recursive; `toDec` always supplies enough fuel). -/
def toDecAux : ℕ → ℕ → List Char
  | 0, _ => []
  | fuel + 1, n =>
    if n < 10 then [digitChar n] else toDecAux fuel (n / 10) ++ [digitChar (n % 10)]

/-- Python `str(n)` for a natural number `n`, e.g. `f"{year}"`. -/
def toDec (n : ℕ) : PyStr := toDecAux (n + 1) n

/-- Python `f"{m:02d}"` for the month number. -/
def month2 (m : ℕ) : PyStr := if m < 10 then '0' :: toDec m else toDec m

/-- Numeric value of a digit string (fold used by decimal parsing). -/
def pvalC (s : List Char) : ℕ := s.foldl (fun a c => a * 10 + (c.toNat - 48)) 0

/-- Python `int(s)` on the strings this program feeds it (digit strings):
`some` of the value on a non-empty all-digit string, failure otherwise. -/
def parseDec (s : PyStr) : Option ℕ :=
  if s ≠ [] ∧ ∀ c ∈ s, c.isDigit = true then some (pvalC s) else none

/-- Python `float(s)` on plain decimal literals: optional sign, digits,
optional `.` and fraction digits.  The weather CSV contains only such
literals, so exotic float syntax (exponents, `inf`, `nan`) is not modelled. -/
def pyFloat (s : PyStr) : Option ℚ :=
  match s with
  | '-' :: t => (pyFloatCore t).map (fun q => -q)
  | '+' :: t => pyFloatCore t
  | _ => pyFloatCore s
where
  pyFloatCore (t : PyStr) : Option ℚ :=
    let ip := t.takeWhile Char.isDigit
    let rest := t.dropWhile Char.isDigit
    match rest with
    | [] => if ip.isEmpty then none else some ((pvalC ip : ℚ))
    | '.' :: fr =>
      if fr.all Char.isDigit && !(ip.isEmpty && fr.isEmpty) then
        some ((pvalC ip : ℚ) + (pvalC fr : ℚ) / (10 : ℚ) ^ fr.length)
      else none
    | _ => none

/-- Round-half-to-even to an integer, the rounding of Python `round`. -/
def rhalfEven (q : ℚ) : ℤ :=
  let n := ⌊q⌋
  let f := q - n
  if f < 1 / 2 then n
  else if 1 / 2 < f then n + 1
  else if n % 2 = 0 then n else n + 1

/-- Python `round(q, 2)` on exact decimal values. -/
def round2 (q : ℚ) : ℚ := (rhalfEven (q * 100) : ℚ) / 100

/-- Fold of a binary operation over a Python list, seeded with its head
(`max(xs)` / `min(xs)` shape); the empty case yields the `0` the code
substitutes via `... if daily_values else 0`. -/
def pyfold (f : ℚ → ℚ → ℚ) : List ℚ → ℚ
  | [] => 0
  | x :: xs => xs.foldl f x

/-- Python `max(xs)` (with `0` for the guarded empty case). -/
def pymax : List ℚ → ℚ := pyfold max

/-- Python `min(xs)` (with `0` for the guarded empty case). -/
def pymin : List ℚ → ℚ := pyfold min

/-- Gregorian leap-year test used by `datetime` day validation. -/
def isLeapYear (y : ℕ) : Bool := (y % 4 == 0 && !(y % 100 == 0)) || y % 400 == 0

/-- Number of days of month `m` of year `y`. -/
def daysInMonth (y m : ℕ) : ℕ :=
  if m = 2 then (if isLeapYear y then 29 else 28)
  else if m = 4 ∨ m = 6 ∨ m = 9 ∨ m = 11 then 30
  else 31

/-- Python `datetime.strptime(s, '%Y-%m-%d')`, reduced to the `(year, month)`
pair the mappers keep: three dash-separated digit fields, year in
`1..9999` (at most 4 digits), month `1..12`, day valid for the month. -/
def parseDate (s : PyStr) : Option (ℕ × ℕ) :=
  match pysplit '-' s with
  | [ys, ms, ds] =>
    match parseDec ys, parseDec ms, parseDec ds with
    | some y, some m, some d =>
      if 1 ≤ y ∧ y ≤ 9999 ∧ 1 ≤ m ∧ m ≤ 12 ∧ 1 ≤ d ∧ d ≤ daysInMonth y m ∧
          ys.length ≤ 4 ∧ ms.length ≤ 2 ∧ ds.length ≤ 2
      then some (y, m) else none
    | _, _, _ => none
  | _ => none

/-- Python `datetime(year, month, 1).strftime('%B')` for months `1..12`. -/
def monthNameOf : ℕ → PyStr
  | 1 => "January".data | 2 => "February".data | 3 => "March".data
  | 4 => "April".data | 5 => "May".data | 6 => "June".data
  | 7 => "July".data | 8 => "August".data | 9 => "September".data
  | 10 => "October".data | 11 => "November".data | 12 => "December".data
  | _ => []

/-- Stage-1 grouping key `f"{city}_{year}_{month:02d}"` of both pipelines. -/
def mkMonthKey (city : PyStr) (year month : ℕ) : PyStr :=
  city ++ '_' :: (toDec year ++ '_' :: month2 month)

/-- `get_season` of `PrecipitationAnalysis`: four fixed buckets, the final
`else` catching every remaining month. -/
def get_season (month : ℕ) : PyStr :=
  if month = 12 ∨ month = 1 ∨ month = 2 then "Verano".data
  else if month = 3 ∨ month = 4 ∨ month = 5 then "Transición".data
  else if month = 6 ∨ month = 7 ∨ month = 8 then "Invierno".data
  else "Lluvias_Tardías".data

/-- One valid day of temperatures, the dict value the stage-1 mapper emits
(`temp_max`, `temp_min`, `temp_mean`, `count`). -/
structure DailyTemp where
  tempMax : ℚ
  tempMin : ℚ
  tempMean : ℚ
  count : ℕ
  deriving DecidableEq

/-- Stage-1 temperature value channel: a JSON-encoded day or the error
string emitted under the `"ERROR"` key (which `json.loads` rejects). -/
inductive TempMsg where
  | data (d : DailyTemp)
  | err (msg : PyStr)
  deriving DecidableEq

/-- Successful `json.loads` of a stage-1 temperature value. -/
def TempMsg.toData : TempMsg → Option DailyTemp
  | .data d => some d
  | .err _ => none

/-- Aggregated month of temperatures (`reducer_aggregate_temps` output). -/
structure TempStats where
  cityYearMonth : PyStr
  avgTempMax : ℚ
  avgTempMin : ℚ
  avgTempMean : ℚ
  maxTempRecorded : ℚ
  minTempRecorded : ℚ
  totalDays : ℕ
  deriving DecidableEq

/-- One formatted output row of the temperature pipeline (the CSV line is a
field-by-field serialization of this record, in list order). -/
structure FinalRow where
  city : PyStr
  year : ℕ
  month : ℕ
  monthName : PyStr
  stats : TempStats
  deriving DecidableEq

/-- Stage-2 temperature value channel. -/
inductive Out2Msg where
  | row (r : FinalRow)
  | err (msg : PyStr)
  deriving DecidableEq

/-- Successful `json.loads` of a stage-2 temperature value. -/
def Out2Msg.toRow : Out2Msg → Option FinalRow
  | .row r => some r
  | .err _ => none

/-- Stage-1 precipitation value channel: the daily amount (a float) or the
error string emitted under the `"ERROR"` key. -/
inductive PrecMsg where
  | val (q : ℚ)
  | err (msg : PyStr)
  deriving DecidableEq

/-- Numeric payload of a stage-1 precipitation value. -/
def PrecMsg.toVal : PrecMsg → Option ℚ
  | .val q => some q
  | .err _ => none

/-- Monthly precipitation aggregate (`reducer_monthly_totals` output dict). -/
structure MonthlyPrecStat where
  monthlyTotal : ℚ
  daysWithRain : ℕ
  maxDailyPrecipitation : ℚ
  avgDailyPrecipitation : ℚ
  totalDays : ℕ
  deriving DecidableEq

/-- Stage-2 precipitation input channel. -/
inductive Prec2Msg where
  | stat (s : MonthlyPrecStat)
  | err (msg : PyStr)
  deriving DecidableEq

/-- Monthly stat enriched with city/season data (`mapper_add_season`). -/
structure EnhancedStat where
  city : PyStr
  year : ℕ
  month : ℕ
  season : PyStr
  stat : MonthlyPrecStat
  deriving DecidableEq

/-- Seasonal reducer input channel. -/
inductive Enh2Msg where
  | enh (e : EnhancedStat)
  | err (msg : PyStr)
  deriving DecidableEq

/-- Successful `json.loads` of a seasonal reducer input value. -/
def Enh2Msg.toEnh : Enh2Msg → Option EnhancedStat
  | .enh e => some e
  | .err _ => none

/-- One output row of the precipitation pipeline (the CSV line serializes
these fields in order). -/
structure SeasonalRow where
  city : PyStr
  year : ℕ
  season : PyStr
  totalSeasonalPrecipitation : ℚ
  avgMonthlyPrecipitation : ℚ
  maxMonthlyPrecipitation : ℚ
  totalRainyDays : ℕ
  monthsInSeason : ℕ
  deriving DecidableEq

/-- Error message of `mapper_parse_data` (content never inspected). -/
def procErrMsg : PyStr := "Error processing line".data

/-- Error message of `mapper_format_output`. -/
def fmtErrMsg : PyStr := "Format error".data

/-- Error message of `mapper_parse_precipitation`. -/
def parse2ErrMsg : PyStr := "Parse error".data

/-- Error message of `mapper_add_season`. -/
def seasonErrMsg : PyStr := "Season mapping error".data

/-- `mapper_parse_data` of `TemperatureAnalysis`: skip the header, silently
drop rows with fewer than 8 fields, treat empty numeric fields as `None`
(silently dropping the row), route any `float`/date exception to `"ERROR"`,
and otherwise emit the day under the `city_year_month` key. -/
def mapper_parse_data (line : PyStr) : List (PyStr × TempMsg) :=
  if headerPre.isPrefixOf line then []
  else
    let row := pysplit ',' line
    if row.length < 8 then []
    else
      match (if (row.getD 1 []).isEmpty then some none else (pyFloat (row.getD 1 [])).map some),
          (if (row.getD 2 []).isEmpty then some none else (pyFloat (row.getD 2 [])).map some),
          (if (row.getD 3 []).isEmpty then some none else (pyFloat (row.getD 3 [])).map some) with
      | some (some tmax), some (some tmin), some (some tmean) =>
        match parseDate (row.getD 0 []) with
        | some (y, m) =>
          [(mkMonthKey (row.getD 7 []) y m, TempMsg.data ⟨tmax, tmin, tmean, 1⟩)]
        | none => [(sERROR, TempMsg.err procErrMsg)]
      | some _, some _, some _ => []
      | _, _, _ => [(sERROR, TempMsg.err procErrMsg)]

/-- `reducer_aggregate_temps`: ignore the error key, skip undecodable
values, emit nothing for an empty group, else one stats record. -/
def reducer_aggregate_temps (key : PyStr) (values : List TempMsg) :
    List (PyStr × TempStats) :=
  if key = sERROR then []
  else
    let l := values.filterMap TempMsg.toData
    if l.isEmpty then []
    else
      [(key,
        ⟨key,
          round2 ((l.map DailyTemp.tempMax).sum / (l.length : ℚ)),
          round2 ((l.map DailyTemp.tempMin).sum / (l.length : ℚ)),
          round2 ((l.map DailyTemp.tempMean).sum / (l.length : ℚ)),
          round2 (pymax (l.map DailyTemp.tempMax)),
          round2 (pymin (l.map DailyTemp.tempMin)),
          (l.map DailyTemp.count).sum⟩)]

/-- `mapper_format_output`: split the stage-1 key back into exactly three
parts, re-parse year and month, validate them through `datetime`, and emit
the enriched row under `f"{city}_{year}"`; every failure goes to `"ERROR"`. -/
def mapper_format_output (key : PyStr) (stats : TempStats) :
    List (PyStr × Out2Msg) :=
  if key = sERROR then []
  else
    match pysplit '_' key with
    | [c, ys, ms] =>
      match parseDec ys, parseDec ms with
      | some y, some m =>
        if 1 ≤ m ∧ m ≤ 12 ∧ 1 ≤ y ∧ y ≤ 9999 then
          [(c ++ '_' :: ys, Out2Msg.row ⟨c, y, m, monthNameOf m, stats⟩)]
        else [(sERROR, Out2Msg.err fmtErrMsg)]
      | _, _ => [(sERROR, Out2Msg.err fmtErrMsg)]
    | _ => [(sERROR, Out2Msg.err fmtErrMsg)]

/-- `reducer_final_output`: ignore the error key, decode the rows, sort them
by month (Python `list.sort`, a stable sort), and emit them in order. -/
def reducer_final_output (key : PyStr) (values : List Out2Msg) :
    List FinalRow :=
  if key = sERROR then []
  else
    (values.filterMap Out2Msg.toRow).mergeSort
      (fun a b => decide (a.month ≤ b.month))

/-- `mapper_parse_precipitation`: header skip, silent drop below 8 fields,
empty precipitation field defaults to `0.0`, float/date failures go to
`"ERROR"`, else the daily amount is emitted under `city_year_month`. -/
def mapper_parse_precipitation (line : PyStr) : List (PyStr × PrecMsg) :=
  if headerPre.isPrefixOf line then []
  else
    let row := pysplit ',' line
    if row.length < 8 then []
    else
      match (if (row.getD 4 []).isEmpty then some 0 else pyFloat (row.getD 4 [])) with
      | some p =>
        match parseDate (row.getD 0 []) with
        | some (y, m) => [(mkMonthKey (row.getD 7 []) y m, PrecMsg.val p)]
        | none => [(sERROR, PrecMsg.err parse2ErrMsg)]
      | none => [(sERROR, PrecMsg.err parse2ErrMsg)]

/-- `reducer_monthly_totals` on the numeric daily values of its key: ignores
the error key, and otherwise always emits one record (sum, rain-day count,
guarded max, guarded mean, day count).  Non-error groups are never empty in
the pipeline (`groupByKey` only creates inhabited groups). -/
def reducer_monthly_totals (key : PyStr) (values : List ℚ) :
    List (PyStr × Prec2Msg) :=
  if key = sERROR then []
  else
    [(key,
      Prec2Msg.stat
        ⟨round2 values.sum,
          values.countP (fun v => decide (0 < v)),
          round2 (pymax values),
          round2 (if values.isEmpty then 0 else values.sum / (values.length : ℚ)),
          values.length⟩)]

/-- `mapper_add_season`: split the stage-1 key back into exactly three
parts, re-parse month and year, derive the season, and regroup under
`f"{city}_{season}_{year}"`; every failure goes to `"ERROR"`. -/
def mapper_add_season (key : PyStr) (value : Prec2Msg) :
    List (PyStr × Enh2Msg) :=
  if key = sERROR then []
  else
    match value with
    | .err _ => [(sERROR, Enh2Msg.err seasonErrMsg)]
    | .stat d =>
      match pysplit '_' key with
      | [c, ys, ms] =>
        match parseDec ms, parseDec ys with
        | some m, some y =>
          [(c ++ '_' :: (get_season m ++ '_' :: ys),
            Enh2Msg.enh ⟨c, y, m, get_season m, d⟩)]
        | _, _ => [(sERROR, Enh2Msg.err seasonErrMsg)]
      | _ => [(sERROR, Enh2Msg.err seasonErrMsg)]

/-- `reducer_seasonal_analysis`: ignore the error key, decode the values,
emit nothing for an empty group, else one seasonal record whose city, year
and season are read off the first group element. -/
def reducer_seasonal_analysis (key : PyStr) (values : List Enh2Msg) :
    List SeasonalRow :=
  if key = sERROR then []
  else
    let sd := values.filterMap Enh2Msg.toEnh
    match sd with
    | [] => []
    | h :: _ =>
      [⟨h.city, h.year, h.season,
        round2 ((sd.map (fun e => e.stat.monthlyTotal)).sum),
        round2 ((sd.map (fun e => e.stat.monthlyTotal)).sum / (sd.length : ℚ)),
        round2 (pymax (sd.map (fun e => e.stat.monthlyTotal))),
        (sd.map (fun e => e.stat.daysWithRain)).sum,
        sd.length⟩]

/-- Append one value to its key's group, keeping first-appearance order of
keys and arrival order of values (the shuffle of the map-reduce runtime). -/
def insGroup {K V : Type} [DecidableEq K] (k : K) (v : V) :
    List (K × List V) → List (K × List V)
  | [] => [(k, [v])]
  | (k', vs) :: rest =>
    if k' = k then (k', vs ++ [v]) :: rest else (k', vs) :: insGroup k v rest

/-- Group emitted pairs by key; a key exists in the result only if at least
one pair carried it. -/
def groupByKey {K V : Type} [DecidableEq K] (ps : List (K × V)) :
    List (K × List V) :=
  ps.foldl (fun acc p => insGroup p.1 p.2 acc) []

/-- Reduce phase of temperature stage 1. -/
def tempReduce1 (pairs : List (PyStr × TempMsg)) : List (PyStr × TempStats) :=
  (groupByKey pairs).flatMap (fun g => reducer_aggregate_temps g.1 g.2)

/-- Temperature stage 1 on raw input lines. -/
def tempStage1 (lines : List PyStr) : List (PyStr × TempStats) :=
  tempReduce1 (lines.flatMap mapper_parse_data)

/-- Reduce phase of temperature stage 2. -/
def tempReduce2 (pairs : List (PyStr × Out2Msg)) : List FinalRow :=
  (groupByKey pairs).flatMap (fun g => reducer_final_output g.1 g.2)

/-- Temperature stage 2 on the stage-1 key/stats pairs. -/
def tempStage2 (pairs : List (PyStr × TempStats)) : List FinalRow :=
  tempReduce2 (pairs.flatMap (fun p => mapper_format_output p.1 p.2))

/-- The whole temperature job. -/
def tempPipeline (lines : List PyStr) : List FinalRow :=
  tempStage2 (tempStage1 lines)

/-- Reduce phase of precipitation stage 1.  A non-error group holds only
numeric values (the mapper sends strings to `"ERROR"` alone), so the
`filterMap` handing the reducer its floats is the identity there. -/
def precReduce1 (pairs : List (PyStr × PrecMsg)) : List (PyStr × Prec2Msg) :=
  (groupByKey pairs).flatMap
    (fun g => reducer_monthly_totals g.1 (g.2.filterMap PrecMsg.toVal))

/-- Precipitation stage 1 on raw input lines. -/
def precStage1 (lines : List PyStr) : List (PyStr × Prec2Msg) :=
  precReduce1 (lines.flatMap mapper_parse_precipitation)

/-- Reduce phase of precipitation stage 2. -/
def precReduce2 (pairs : List (PyStr × Enh2Msg)) : List SeasonalRow :=
  (groupByKey pairs).flatMap (fun g => reducer_seasonal_analysis g.1 g.2)

/-- Precipitation stage 2 on the stage-1 key/stat pairs. -/
def precStage2 (pairs : List (PyStr × Prec2Msg)) : List SeasonalRow :=
  precReduce2 (pairs.flatMap (fun p => mapper_add_season p.1 p.2))

/-- The whole precipitation job. -/
def precPipeline (lines : List PyStr) : List SeasonalRow :=
  precStage2 (precStage1 lines)

/-! ### String and digit lemmas -/

theorem pysplit_ne_nil (sep : Char) (s : List Char) : pysplit sep s ≠ [] := by
  induction s with
  | nil => simp [pysplit]
  | cons c cs ih =>
    by_cases h : c = sep
    · simp [pysplit, h]
    · simp only [pysplit, if_neg h]
      cases hs : pysplit sep cs with
      | nil => simp
      | cons t ts => simp

theorem pysplit_length (sep : Char) (s : List Char) :
    (pysplit sep s).length = s.count sep + 1 := by
  induction s with
  | nil => simp [pysplit]
  | cons c cs ih =>
    by_cases h : c = sep
    · subst h
      simp [pysplit, ih, List.count_cons]
    · simp only [pysplit, if_neg h]
      cases hs : pysplit sep cs with
      | nil => exact absurd hs (pysplit_ne_nil sep cs)
      | cons t ts =>
        rw [hs] at ih
        simp only [List.length_cons] at ih ⊢
        rw [List.count_cons]
        simp [h, ih]

theorem mem_pysplit_not_sep (sep : Char) (s : List Char) :
    ∀ p ∈ pysplit sep s, sep ∉ p := by
  induction s with
  | nil =>
    intro p hp
    simp [pysplit] at hp
    simp [hp]
  | cons c cs ih =>
    intro p hp
    by_cases h : c = sep
    · subst h
      simp only [pysplit, if_pos rfl] at hp
      rcases List.mem_cons.mp hp with hp | hp
      · simp [hp]
      · exact ih p hp
    · simp only [pysplit, if_neg h] at hp
      cases hs : pysplit sep cs with
      | nil => exact absurd hs (pysplit_ne_nil sep cs)
      | cons t ts =>
        rw [hs] at hp
        rcases List.mem_cons.mp hp with hp | hp
        · subst hp
          intro hm
          rcases List.mem_cons.mp hm with hm | hm
          · exact h hm.symm
          · exact ih t (hs ▸ List.mem_cons_self t ts) hm
        · exact ih p (hs ▸ List.mem_cons_of_mem t hp)

theorem pysplit_eq_single (sep : Char) (a : List Char) (h : sep ∉ a) :
    pysplit sep a = [a] := by
  induction a with
  | nil => rfl
  | cons c cs ih =>
    have hc : ¬(c = sep) := by
      intro hcc
      exact h (hcc ▸ List.mem_cons_self c cs)
    have hcs : sep ∉ cs := fun hm => h (List.mem_cons_of_mem c hm)
    simp only [pysplit, if_neg hc, ih hcs]

theorem pysplit_append (sep : Char) (a rest : List Char) (h : sep ∉ a) :
    pysplit sep (a ++ sep :: rest) = a :: pysplit sep rest := by
  induction a with
  | nil => simp [pysplit]
  | cons c cs ih =>
    have hc : ¬(c = sep) := by
      intro hcc
      exact h (hcc ▸ List.mem_cons_self c cs)
    have hcs : sep ∉ cs := fun hm => h (List.mem_cons_of_mem c hm)
    simp only [List.cons_append, pysplit, if_neg hc, List.append_eq, ih hcs]

theorem digitChar_isDigit (d : ℕ) (h : d < 10) : (digitChar d).isDigit = true := by
  interval_cases d <;> decide

theorem digitChar_toNat (d : ℕ) (h : d < 10) : (digitChar d).toNat = 48 + d := by
  interval_cases d <;> decide

theorem toDecAux_digits (fuel : ℕ) :
    ∀ n, n < fuel → ∀ c ∈ toDecAux fuel n, c.isDigit = true := by
  induction fuel with
  | zero => omega
  | succ fuel ih =>
    intro n hn c hc
    by_cases h10 : n < 10
    · simp only [toDecAux, if_pos h10, List.mem_singleton] at hc
      exact hc ▸ digitChar_isDigit n h10
    · simp only [toDecAux, if_neg h10, List.mem_append, List.mem_singleton] at hc
      rcases hc with hc | hc
      · have hd : n / 10 < n := Nat.div_lt_self (by omega) (by omega)
        exact ih (n / 10) (by omega) c hc
      · exact hc ▸ digitChar_isDigit (n % 10) (Nat.mod_lt _ (by omega))

theorem toDecAux_ne_nil (fuel n : ℕ) (h : n < fuel) : toDecAux fuel n ≠ [] := by
  cases fuel with
  | zero => omega
  | succ fuel =>
    by_cases h10 : n < 10
    · simp [toDecAux, h10]
    · simp [toDecAux, h10]

theorem toDecAux_pval (fuel : ℕ) :
    ∀ n, n < fuel → pvalC (toDecAux fuel n) = n := by
  induction fuel with
  | zero => omega
  | succ fuel ih =>
    intro n hn
    by_cases h10 : n < 10
    · simp only [toDecAux, if_pos h10]
      simp [pvalC, digitChar_toNat n h10]
    · simp only [toDecAux, if_neg h10]
      have hd : n / 10 < n := Nat.div_lt_self (by omega) (by omega)
      have hih := ih (n / 10) (by omega)
      simp only [pvalC, List.foldl_append] at hih ⊢
      rw [hih]
      simp [digitChar_toNat (n % 10) (Nat.mod_lt _ (by omega))]
      omega

theorem toDec_digits (n : ℕ) : ∀ c ∈ toDec n, c.isDigit = true :=
  toDecAux_digits (n + 1) n (Nat.lt_succ_self n)

theorem toDec_ne_nil (n : ℕ) : toDec n ≠ [] :=
  toDecAux_ne_nil (n + 1) n (Nat.lt_succ_self n)

theorem pval_toDec (n : ℕ) : pvalC (toDec n) = n :=
  toDecAux_pval (n + 1) n (Nat.lt_succ_self n)

theorem parseDec_toDec (n : ℕ) : parseDec (toDec n) = some n := by
  unfold parseDec
  rw [if_pos ⟨toDec_ne_nil n, toDec_digits n⟩]
  exact congrArg some (toDecAux_pval (n + 1) n (Nat.lt_succ_self n))

theorem underscore_not_mem_toDec (n : ℕ) : '_' ∉ toDec n := by
  intro h
  have := toDec_digits n '_' h
  simp at this

theorem month2_digits (m : ℕ) : ∀ c ∈ month2 m, c.isDigit = true := by
  intro c hc
  unfold month2 at hc
  by_cases h : m < 10
  · rw [if_pos h] at hc
    rcases List.mem_cons.mp hc with hc | hc
    · subst hc; decide
    · exact toDec_digits m c hc
  · rw [if_neg h] at hc
    exact toDec_digits m c hc

theorem underscore_not_mem_month2 (m : ℕ) : '_' ∉ month2 m := by
  intro h
  have := month2_digits m '_' h
  simp at this

theorem parseDec_month2 (m : ℕ) : parseDec (month2 m) = some m := by
  unfold month2
  by_cases h : m < 10
  · rw [if_pos h]
    unfold parseDec
    have hcond : ('0' :: toDec m) ≠ [] ∧ ∀ c ∈ '0' :: toDec m, c.isDigit = true := by
      refine ⟨by simp, ?_⟩
      intro c hc
      rcases List.mem_cons.mp hc with hc | hc
      · subst hc; decide
      · exact toDec_digits m c hc
    rw [if_pos hcond]
    have hp : pvalC ('0' :: toDec m) = pvalC (toDec m) := by
      simp [pvalC]
    rw [hp, pval_toDec m]
  · rw [if_neg h]
    exact parseDec_toDec m

/-! ### Key construction and parse-back -/

theorem pysplit_mkMonthKey (city : PyStr) (y m : ℕ) (h : '_' ∉ city) :
    pysplit '_' (mkMonthKey city y m) = [city, toDec y, month2 m] := by
  unfold mkMonthKey
  rw [pysplit_append '_' city _ h,
    pysplit_append '_' (toDec y) _ (underscore_not_mem_toDec y),
    pysplit_eq_single '_' (month2 m) (underscore_not_mem_month2 m)]

theorem count_mkMonthKey (city : PyStr) (y m : ℕ) :
    (mkMonthKey city y m).count '_' = city.count '_' + 2 := by
  unfold mkMonthKey
  rw [List.count_append, List.count_cons, List.count_append, List.count_cons]
  rw [List.count_eq_zero.mpr (underscore_not_mem_toDec y),
    List.count_eq_zero.mpr (underscore_not_mem_month2 m)]
  simp

theorem mkMonthKey_ne_sERROR (city : PyStr) (y m : ℕ) :
    mkMonthKey city y m ≠ sERROR := by
  intro h
  have h1 : '_' ∈ mkMonthKey city y m := by
    unfold mkMonthKey
    exact List.mem_append_right city (List.mem_cons_self _ _)
  rw [h] at h1
  simp [sERROR] at h1

theorem pysplit_mkMonthKey_underscore_city (city : PyStr) (y m : ℕ)
    (h : '_' ∈ city) : (pysplit '_' (mkMonthKey city y m)).length ≠ 3 := by
  rw [pysplit_length, count_mkMonthKey]
  have : 1 ≤ city.count '_' := List.count_pos_iff.mpr h
  omega

/-! ### Grouping lemmas -/

theorem groupByKey_append_single {K V : Type} [DecidableEq K]
    (ps : List (K × V)) (k : K) (v : V) :
    groupByKey (ps ++ [(k, v)]) = insGroup k v (groupByKey ps) := by
  unfold groupByKey
  rw [List.foldl_append]
  rfl

theorem mem_insGroup_nonempty {K V : Type} [DecidableEq K]
    (k : K) (v : V) (acc : List (K × List V))
    (hacc : ∀ g ∈ acc, g.2 ≠ []) :
    ∀ g ∈ insGroup k v acc, g.2 ≠ [] := by
  induction acc with
  | nil =>
    intro g hg
    simp [insGroup] at hg
    simp [hg]
  | cons a rest ih =>
    intro g hg
    obtain ⟨k', vs⟩ := a
    by_cases h : k' = k
    · simp only [insGroup, if_pos h] at hg
      rcases List.mem_cons.mp hg with hg | hg
      · simp [hg]
      · exact hacc g (List.mem_cons_of_mem _ hg)
    · simp only [insGroup, if_neg h] at hg
      rcases List.mem_cons.mp hg with hg | hg
      · exact hg ▸ hacc (k', vs) (List.mem_cons_self _ _)
      · exact ih (fun g' hg' => hacc g' (List.mem_cons_of_mem _ hg')) g hg

theorem mem_groupByKey_nonempty {K V : Type} [DecidableEq K]
    (ps : List (K × V)) :
    ∀ g ∈ groupByKey ps, g.2 ≠ [] := by
  suffices h : ∀ acc : List (K × List V), (∀ g ∈ acc, g.2 ≠ []) →
      ∀ g ∈ ps.foldl (fun acc p => insGroup p.1 p.2 acc) acc, g.2 ≠ [] by
    exact h [] (by simp)
  induction ps with
  | nil => intro acc hacc; simpa using hacc
  | cons p rest ih =>
    intro acc hacc
    rw [List.foldl_cons]
    exact ih (insGroup p.1 p.2 acc) (mem_insGroup_nonempty p.1 p.2 acc hacc)

theorem mem_insGroup_val {K V : Type} [DecidableEq K]
    (k₁ : K) (v₁ : V) (acc : List (K × List V)) (k : K) (vs : List V) (v : V)
    (hg : (k, vs) ∈ insGroup k₁ v₁ acc) (hv : v ∈ vs) :
    (k = k₁ ∧ v = v₁) ∨ ∃ vs₀, (k, vs₀) ∈ acc ∧ v ∈ vs₀ := by
  induction acc with
  | nil =>
    simp [insGroup] at hg
    obtain ⟨hk, hvs⟩ := hg
    subst hk; subst hvs
    left
    exact ⟨rfl, List.mem_singleton.mp hv⟩
  | cons a rest ih =>
    obtain ⟨k', vs'⟩ := a
    by_cases h : k' = k₁
    · simp only [insGroup, if_pos h] at hg
      rcases List.mem_cons.mp hg with hg | hg
      · obtain ⟨hk, hvs⟩ := Prod.mk.injEq .. ▸ hg
        injection hg with hk hvs
        subst hk; subst hvs
        rcases List.mem_append.mp hv with hv | hv
        · right; exact ⟨vs', h ▸ List.mem_cons_self _ _, hv⟩
        · left; exact ⟨h ▸ rfl, List.mem_singleton.mp hv⟩
      · right; exact ⟨vs, List.mem_cons_of_mem _ hg, hv⟩
    · simp only [insGroup, if_neg h] at hg
      rcases List.mem_cons.mp hg with hg | hg
      · right
        injection hg with hk hvs
        subst hk; subst hvs
        exact ⟨vs, List.mem_cons_self _ _, hv⟩
      · rcases ih hg with hcase | ⟨vs₀, hmem, hv₀⟩
        · exact Or.inl hcase
        · exact Or.inr ⟨vs₀, List.mem_cons_of_mem _ hmem, hv₀⟩

theorem mem_of_mem_groupByKey {K V : Type} [DecidableEq K]
    (ps : List (K × V)) (k : K) (vs : List V) (v : V)
    (hg : (k, vs) ∈ groupByKey ps) (hv : v ∈ vs) : (k, v) ∈ ps := by
  suffices h : ∀ acc : List (K × List V),
      (k, vs) ∈ ps.foldl (fun acc p => insGroup p.1 p.2 acc) acc →
      (k, v) ∈ ps ∨ ∃ vs₀, (k, vs₀) ∈ acc ∧ v ∈ vs₀ by
    rcases h [] hg with h | ⟨vs₀, hmem, _⟩
    · exact h
    · simp at hmem
  clear hg
  induction ps with
  | nil =>
    intro acc hg
    right
    exact ⟨vs, hg, hv⟩
  | cons p rest ih =>
    intro acc hg
    rw [List.foldl_cons] at hg
    rcases ih (insGroup p.1 p.2 acc) hg with h | ⟨vs₀, hmem, hv₀⟩
    · exact Or.inl (List.mem_cons_of_mem _ h)
    · rcases mem_insGroup_val p.1 p.2 acc k vs₀ v hmem hv₀ with ⟨hk, hveq⟩ | ⟨vs₁, hm1, hv1⟩
      · left
        subst hk; subst hveq
        exact List.mem_cons_self _ _
      · right; exact ⟨vs₁, hm1, hv1⟩

/-! ### Fold lemmas for Python max and min -/

theorem foldl_pyfold (f : ℚ → ℚ → ℚ)
    (ha : ∀ a b c, f (f a b) c = f a (f b c)) :
    ∀ (l : List ℚ) (a : ℚ), l ≠ [] → l.foldl f a = f a (pyfold f l) := by
  intro l
  induction l with
  | nil => intro a h; exact absurd rfl h
  | cons x xs ih =>
    intro a _
    cases xs with
    | nil => simp [pyfold]
    | cons y ys =>
      have h1 := ih (f a x) (by simp)
      have h2 := ih x (by simp)
      calc (x :: y :: ys).foldl f a = (y :: ys).foldl f (f a x) := by
            rw [List.foldl_cons]
        _ = f (f a x) (pyfold f (y :: ys)) := h1
        _ = f a (f x (pyfold f (y :: ys))) := ha a x _
        _ = f a ((y :: ys).foldl f x) := by rw [← h2]
        _ = f a (pyfold f (x :: y :: ys)) := rfl

theorem pyfold_perm (f : ℚ → ℚ → ℚ)
    (hc : ∀ a b, f a b = f b a) (ha : ∀ a b c, f (f a b) c = f a (f b c))
    {l l' : List ℚ} (p : List.Perm l l') : pyfold f l = pyfold f l' := by
  induction p with
  | nil => rfl
  | cons x p ih =>
    rename_i l₁ l₂
    cases l₁ with
    | nil =>
      rw [p.symm.eq_nil]
    | cons z zs =>
      have hl₂ : l₂ ≠ [] := by
        intro h
        exact absurd (h ▸ p).eq_nil (by simp)
      have e1 : pyfold f (x :: z :: zs) = f x (pyfold f (z :: zs)) := by
        show (z :: zs).foldl f x = _
        exact foldl_pyfold f ha (z :: zs) x (by simp)
      rw [e1]
      cases l₂ with
      | nil => exact absurd rfl hl₂
      | cons w ws =>
        have e2 : pyfold f (x :: w :: ws) = f x (pyfold f (w :: ws)) := by
          show (w :: ws).foldl f x = _
          exact foldl_pyfold f ha (w :: ws) x (by simp)
        rw [e2, ih]
  | swap x y l =>
    cases l with
    | nil => simp [pyfold, hc x y]
    | cons z zs =>
      show (x :: z :: zs).foldl f y = (y :: z :: zs).foldl f x
      simp only [List.foldl_cons]
      rw [hc y x]
  | trans p1 p2 ih1 ih2 => exact ih1.trans ih2

theorem pyfold_mem (f : ℚ → ℚ → ℚ) (hsel : ∀ a b, f a b = a ∨ f a b = b) :
    ∀ l : List ℚ, l ≠ [] → pyfold f l ∈ l := by
  have hfold : ∀ (l : List ℚ) (a : ℚ), l.foldl f a = a ∨ l.foldl f a ∈ l := by
    intro l
    induction l with
    | nil => intro a; left; rfl
    | cons x xs ih =>
      intro a
      rw [List.foldl_cons]
      rcases ih (f a x) with h | h
      · rcases hsel a x with hs | hs
        · left; rw [h, hs]
        · right; rw [h, hs]; exact List.mem_cons_self _ _
      · right; exact List.mem_cons_of_mem _ h
  intro l hl
  cases l with
  | nil => exact absurd rfl hl
  | cons x xs =>
    rcases hfold xs x with h | h
    · show xs.foldl f x ∈ _
      rw [h]; exact List.mem_cons_self _ _
    · exact List.mem_cons_of_mem _ h

theorem pymax_perm {l l' : List ℚ} (p : List.Perm l l') : pymax l = pymax l' :=
  pyfold_perm max max_comm max_assoc p

theorem pymin_perm {l l' : List ℚ} (p : List.Perm l l') : pymin l = pymin l' :=
  pyfold_perm min min_comm min_assoc p

theorem pymax_mem (l : List ℚ) (h : l ≠ []) : pymax l ∈ l :=
  pyfold_mem max max_choice l h

theorem pymin_mem (l : List ℚ) (h : l ≠ []) : pymin l ∈ l :=
  pyfold_mem min min_choice l h

/-! ### Rounding lemmas -/

theorem rhalfEven_intCast (z : ℤ) : rhalfEven (z : ℚ) = z := by
  unfold rhalfEven
  rw [Int.floor_intCast]
  norm_num

theorem round2_cent (q : ℚ) (h : ∃ z : ℤ, q = (z : ℚ) / 100) :
    round2 q = q := by
  obtain ⟨z, rfl⟩ := h
  unfold round2
  have h100 : ((z : ℚ) / 100) * 100 = (z : ℚ) := by
    field_simp
  rw [h100, rhalfEven_intCast]

theorem cent_add (a b : ℚ) (ha : ∃ z : ℤ, a = (z : ℚ) / 100)
    (hb : ∃ z : ℤ, b = (z : ℚ) / 100) : ∃ z : ℤ, a + b = (z : ℚ) / 100 := by
  obtain ⟨za, rfl⟩ := ha
  obtain ⟨zb, rfl⟩ := hb
  exact ⟨za + zb, by push_cast; ring⟩

theorem cent_sum (l : List ℚ) (h : ∀ x ∈ l, ∃ z : ℤ, x = (z : ℚ) / 100) :
    ∃ z : ℤ, l.sum = (z : ℚ) / 100 := by
  induction l with
  | nil => exact ⟨0, by simp⟩
  | cons x xs ih =>
    rw [List.sum_cons]
    exact cent_add x xs.sum (h x (List.mem_cons_self _ _))
      (ih fun y hy => h y (List.mem_cons_of_mem _ hy))

theorem cent_pymax (l : List ℚ) (hne : l ≠ [])
    (h : ∀ x ∈ l, ∃ z : ℤ, x = (z : ℚ) / 100) :
    ∃ z : ℤ, pymax l = (z : ℚ) / 100 :=
  h (pymax l) (pymax_mem l hne)

/-! ### Error-channel flow lemmas -/

theorem flatMap_insGroup_err {V O : Type}
    (red : PyStr → List V → List O) (hred : ∀ vs, red sERROR vs = [])
    (v : V) (gs : List (PyStr × List V)) :
    (insGroup sERROR v gs).flatMap (fun g => red g.1 g.2) =
      gs.flatMap (fun g => red g.1 g.2) := by
  induction gs with
  | nil => simp [insGroup, hred]
  | cons a rest ih =>
    obtain ⟨k', vs'⟩ := a
    by_cases h : k' = sERROR
    · subst h
      simp [insGroup, hred]
    · simp only [insGroup, if_neg h, List.flatMap_cons, ih]

theorem flatMap_foldl_err {V O : Type}
    (red : PyStr → List V → List O) (hred : ∀ vs, red sERROR vs = [])
    (es : List (PyStr × V)) (hes : ∀ e ∈ es, e.1 = sERROR) :
    ∀ gs : List (PyStr × List V),
      ((es.foldl (fun acc p => insGroup p.1 p.2 acc) gs).flatMap
        (fun g => red g.1 g.2)) =
        gs.flatMap (fun g => red g.1 g.2) := by
  induction es with
  | nil => intro gs; rfl
  | cons e es ih =>
    intro gs
    rw [List.foldl_cons,
      ih (fun e' he' => hes e' (List.mem_cons_of_mem _ he')) _,
      hes e (List.mem_cons_self _ _)]
    exact flatMap_insGroup_err red hred e.2 gs

theorem reducer_aggregate_temps_err (vs : List TempMsg) :
    reducer_aggregate_temps sERROR vs = [] := by
  simp [reducer_aggregate_temps]

theorem reducer_monthly_totals_err (vs : List ℚ) :
    reducer_monthly_totals sERROR vs = [] := by
  simp [reducer_monthly_totals]

theorem reducer_seasonal_analysis_err (vs : List Enh2Msg) :
    reducer_seasonal_analysis sERROR vs = [] := by
  simp [reducer_seasonal_analysis]

theorem reducer_final_output_err (vs : List Out2Msg) :
    reducer_final_output sERROR vs = [] := by
  simp [reducer_final_output]

theorem tempReduce1_append_errs (pairs es : List (PyStr × TempMsg))
    (hes : ∀ e ∈ es, e.1 = sERROR) :
    tempReduce1 (pairs ++ es) = tempReduce1 pairs := by
  unfold tempReduce1 groupByKey
  rw [List.foldl_append]
  exact flatMap_foldl_err _ (fun vs => reducer_aggregate_temps_err vs) es hes _

theorem precReduce1_append_errs (pairs es : List (PyStr × PrecMsg))
    (hes : ∀ e ∈ es, e.1 = sERROR) :
    precReduce1 (pairs ++ es) = precReduce1 pairs := by
  unfold precReduce1 groupByKey
  rw [List.foldl_append]
  exact flatMap_foldl_err
    (fun k vs => reducer_monthly_totals k (vs.filterMap PrecMsg.toVal))
    (fun vs => reducer_monthly_totals_err _) es hes _

theorem tempStage1_append_err_line (lines : List PyStr) (bad : PyStr)
    (hbad : ∀ p ∈ mapper_parse_data bad, p.1 = sERROR) :
    tempStage1 (lines ++ [bad]) = tempStage1 lines := by
  unfold tempStage1
  rw [List.flatMap_append]
  simp only [List.flatMap_cons, List.flatMap_nil, List.append_nil]
  exact tempReduce1_append_errs _ _ hbad

theorem precStage1_append_err_line (lines : List PyStr) (bad : PyStr)
    (hbad : ∀ p ∈ mapper_parse_precipitation bad, p.1 = sERROR) :
    precStage1 (lines ++ [bad]) = precStage1 lines := by
  unfold precStage1
  rw [List.flatMap_append]
  simp only [List.flatMap_cons, List.flatMap_nil, List.append_nil]
  exact precReduce1_append_errs _ _ hbad

/-! ### Mapper emission shapes -/

theorem parseDate_bounds (s : PyStr) (y m : ℕ) (h : parseDate s = some (y, m)) :
    1 ≤ y ∧ y ≤ 9999 ∧ 1 ≤ m ∧ m ≤ 12 := by
  unfold parseDate at h
  split at h
  · split at h
    · split at h
      · rename_i hcond
        injection h with h'
        injection h' with h1 h2
        subst h1; subst h2
        exact ⟨hcond.1, hcond.2.1, hcond.2.2.1, hcond.2.2.2.1⟩
      · exact absurd h (by simp)
    · exact absurd h (by simp)
  · exact absurd h (by simp)

theorem mapper_parse_data_shape (line : PyStr) (k : PyStr) (m : TempMsg)
    (hp : (k, m) ∈ mapper_parse_data line) :
    (k = sERROR ∧ m = TempMsg.err procErrMsg) ∨
      (∃ city y mo d, k = mkMonthKey city y mo ∧ m = TempMsg.data d ∧
        d.count = 1 ∧ 1 ≤ mo ∧ mo ≤ 12) := by
  unfold mapper_parse_data at hp
  split at hp
  · simp at hp
  · dsimp only at hp
    split at hp
    · simp at hp
    · split at hp
      · split at hp
        · rename_i y mo hdate
          simp only [List.mem_singleton] at hp
          injection hp with hk hv
          right
          exact ⟨_, y, mo, _, hk, hv, rfl,
            (parseDate_bounds _ y mo hdate).2.2.1,
            (parseDate_bounds _ y mo hdate).2.2.2⟩
        · simp only [List.mem_singleton] at hp
          injection hp with hk hv
          exact Or.inl ⟨hk, hv⟩
      · simp at hp
      · simp only [List.mem_singleton] at hp
        injection hp with hk hv
        exact Or.inl ⟨hk, hv⟩

theorem mapper_parse_precipitation_shape (line : PyStr) (k : PyStr)
    (m : PrecMsg) (hp : (k, m) ∈ mapper_parse_precipitation line) :
    (k = sERROR ∧ m = PrecMsg.err parse2ErrMsg) ∨
      (∃ city y mo q, k = mkMonthKey city y mo ∧ m = PrecMsg.val q ∧
        1 ≤ mo ∧ mo ≤ 12) := by
  unfold mapper_parse_precipitation at hp
  split at hp
  · simp at hp
  · dsimp only at hp
    split at hp
    · simp at hp
    · split at hp
      · split at hp
        · rename_i y mo hdate
          simp only [List.mem_singleton] at hp
          injection hp with hk hv
          right
          exact ⟨_, y, mo, _, hk, hv,
            (parseDate_bounds _ y mo hdate).2.2.1,
            (parseDate_bounds _ y mo hdate).2.2.2⟩
        · simp only [List.mem_singleton] at hp
          injection hp with hk hv
          exact Or.inl ⟨hk, hv⟩
      · simp only [List.mem_singleton] at hp
        injection hp with hk hv
        exact Or.inl ⟨hk, hv⟩

/-! ### Counting helpers -/

theorem filterMap_toVal_length (vs : List PrecMsg)
    (h : ∀ v ∈ vs, ∃ q, v = PrecMsg.val q) :
    (vs.filterMap PrecMsg.toVal).length = vs.length := by
  induction vs with
  | nil => rfl
  | cons v rest ih =>
    obtain ⟨q, rfl⟩ := h v (List.mem_cons_self _ _)
    simp only [List.filterMap_cons, PrecMsg.toVal, List.length_cons]
    rw [ih (fun v hv => h v (List.mem_cons_of_mem _ hv))]

theorem sum_map_count_one (l : List DailyTemp) (h : ∀ d ∈ l, d.count = 1) :
    (l.map DailyTemp.count).sum = l.length := by
  induction l with
  | nil => rfl
  | cons x xs ih =>
    simp only [List.map_cons, List.sum_cons, List.length_cons,
      h x (List.mem_cons_self _ _)]
    rw [ih (fun d hd => h d (List.mem_cons_of_mem _ hd))]
    omega

/-! ### Reducer order-independence -/

theorem perm_isEmpty_eq {α : Type} {l l' : List α} (p : List.Perm l l') :
    l.isEmpty = l'.isEmpty := by
  cases l with
  | nil => rw [p.symm.eq_nil]
  | cons x xs =>
    cases l' with
    | nil => exact absurd p.eq_nil (by simp)
    | cons y ys => rfl

theorem reducer_aggregate_temps_perm (key : PyStr) {vs vs' : List TempMsg}
    (p : List.Perm vs vs') :
    reducer_aggregate_temps key vs = reducer_aggregate_temps key vs' := by
  unfold reducer_aggregate_temps
  by_cases hk : key = sERROR
  · simp [hk]
  · rw [if_neg hk, if_neg hk]
    dsimp only
    have hl : List.Perm (vs.filterMap TempMsg.toData)
        (vs'.filterMap TempMsg.toData) := p.filterMap _
    rw [perm_isEmpty_eq hl, (hl.map DailyTemp.tempMax).sum_eq,
      (hl.map DailyTemp.tempMin).sum_eq, (hl.map DailyTemp.tempMean).sum_eq,
      hl.length_eq, pymax_perm (hl.map DailyTemp.tempMax),
      pymin_perm (hl.map DailyTemp.tempMin), (hl.map DailyTemp.count).sum_eq]

theorem reducer_monthly_totals_perm (key : PyStr) {vs vs' : List ℚ}
    (p : List.Perm vs vs') :
    reducer_monthly_totals key vs = reducer_monthly_totals key vs' := by
  unfold reducer_monthly_totals
  by_cases hk : key = sERROR
  · simp [hk]
  · rw [if_neg hk, if_neg hk, perm_isEmpty_eq p, p.sum_eq, p.countP_eq,
      pymax_perm p, p.length_eq]

theorem reducer_seasonal_analysis_perm (key : PyStr) {vs vs' : List Enh2Msg}
    (p : List.Perm vs vs')
    (hagree : ∀ a ∈ vs.filterMap Enh2Msg.toEnh,
      ∀ b ∈ vs.filterMap Enh2Msg.toEnh,
      a.city = b.city ∧ a.year = b.year ∧ a.season = b.season) :
    reducer_seasonal_analysis key vs = reducer_seasonal_analysis key vs' := by
  unfold reducer_seasonal_analysis
  by_cases hk : key = sERROR
  · simp [hk]
  · rw [if_neg hk, if_neg hk]
    dsimp only
    have hl : List.Perm (vs.filterMap Enh2Msg.toEnh)
        (vs'.filterMap Enh2Msg.toEnh) := p.filterMap _
    cases hc : vs.filterMap Enh2Msg.toEnh with
    | nil =>
      have hc' : vs'.filterMap Enh2Msg.toEnh = [] := by
        rw [hc] at hl
        exact hl.symm.eq_nil
      rw [hc']
    | cons h t =>
      cases hc' : vs'.filterMap Enh2Msg.toEnh with
      | nil =>
        rw [hc, hc'] at hl
        exact absurd hl.eq_nil (by simp)
      | cons h' t' =>
        have hlc : List.Perm (h :: t) (h' :: t') := by
          rw [hc, hc'] at hl
          exact hl
        have hmem : h' ∈ vs.filterMap Enh2Msg.toEnh := by
          rw [hc]
          exact hlc.symm.subset (List.mem_cons_self h' t')
        have hh : h.city = h'.city ∧ h.year = h'.year ∧ h.season = h'.season :=
          hagree h (hc ▸ List.mem_cons_self h t) h' hmem
        dsimp only
        rw [hh.1, hh.2.1, hh.2.2, (hlc.map (fun e => e.stat.monthlyTotal)).sum_eq,
          hlc.length_eq, pymax_perm (hlc.map (fun e => e.stat.monthlyTotal)),
          (hlc.map (fun e => e.stat.daysWithRain)).sum_eq]

/-! ### Sortedness of the final temperature rows -/

theorem reducer_final_output_sorted (key : PyStr) (vs : List Out2Msg)
    (hkey : key ≠ sERROR)
    (hd : (vs.filterMap Out2Msg.toRow).Pairwise (fun a b => a.month ≠ b.month)) :
    List.Chain' (fun a b => a.month < b.month)
      (reducer_final_output key vs) := by
  unfold reducer_final_output
  rw [if_neg hkey]
  have htrans : ∀ a b c : FinalRow, decide (a.month ≤ b.month) = true →
      decide (b.month ≤ c.month) = true → decide (a.month ≤ c.month) = true := by
    intro a b c hab hbc
    simp only [decide_eq_true_eq] at hab hbc ⊢
    omega
  have htotal : ∀ a b : FinalRow, (decide (a.month ≤ b.month) ||
      decide (b.month ≤ a.month)) = true := by
    intro a b
    simp only [Bool.or_eq_true, decide_eq_true_eq]
    omega
  have hsort := List.sorted_mergeSort htrans htotal (vs.filterMap Out2Msg.toRow)
  have hperm := List.mergeSort_perm (vs.filterMap Out2Msg.toRow)
    (fun a b => decide (a.month ≤ b.month))
  have hd' : ((vs.filterMap Out2Msg.toRow).mergeSort
      (fun a b => decide (a.month ≤ b.month))).Pairwise
      (fun a b => a.month ≠ b.month) :=
    (hperm.pairwise_iff (fun h => h.symm)).mpr hd
  apply List.Pairwise.chain'
  exact (hsort.and hd').imp
    (fun hab => lt_of_le_of_ne (by simpa using hab.1) hab.2)

/-! ### City names in final rows come from key splitting -/

theorem mapper_format_output_row_city (key : PyStr) (s : TempStats)
    (k : PyStr) (r : FinalRow)
    (h : (k, Out2Msg.row r) ∈ mapper_format_output key s) : '_' ∉ r.city := by
  unfold mapper_format_output at h
  by_cases hkey : key = sERROR
  · rw [if_pos hkey] at h
    simp at h
  · rw [if_neg hkey] at h
    rcases hsp : pysplit '_' key with _ | ⟨c, _ | ⟨ys, _ | ⟨ms, _ | ⟨d4, rest⟩⟩⟩⟩ <;>
      rw [hsp] at h <;> dsimp only at h
    · simp at h
    · simp at h
    · simp at h
    · cases hd1 : parseDec ys with
      | none => rw [hd1] at h; simp at h
      | some y =>
        rw [hd1] at h
        cases hd2 : parseDec ms with
        | none => rw [hd2] at h; simp at h
        | some m =>
          rw [hd2] at h
          dsimp only at h
          split at h
          · simp only [List.mem_singleton] at h
            injection h with hk hv
            injection hv with hr
            have hcmem : c ∈ pysplit '_' key := by
              rw [hsp]
              exact List.mem_cons_self _ _
            have hnc := mem_pysplit_not_sep '_' key c hcmem
            rw [hr]
            exact hnc
          · simp at h
    · simp at h

theorem mapper_add_season_enh_city (key : PyStr) (v : Prec2Msg)
    (k : PyStr) (e : EnhancedStat)
    (h : (k, Enh2Msg.enh e) ∈ mapper_add_season key v) : '_' ∉ e.city := by
  unfold mapper_add_season at h
  by_cases hkey : key = sERROR
  · rw [if_pos hkey] at h
    simp at h
  · rw [if_neg hkey] at h
    cases v with
    | err m => simp at h
    | stat d =>
      rcases hsp : pysplit '_' key with _ | ⟨c, _ | ⟨ys, _ | ⟨ms, _ | ⟨d4, rest⟩⟩⟩⟩ <;>
        rw [hsp] at h <;> dsimp only at h
      · simp at h
      · simp at h
      · simp at h
      · cases hd1 : parseDec ms with
        | none => rw [hd1] at h; simp at h
        | some m =>
          rw [hd1] at h
          cases hd2 : parseDec ys with
          | none => rw [hd2] at h; simp at h
          | some y =>
            rw [hd2] at h
            dsimp only at h
            simp only [List.mem_singleton] at h
            injection h with hk hv
            injection hv with he
            have hcmem : c ∈ pysplit '_' key := by
              rw [hsp]
              exact List.mem_cons_self _ _
            have hnc := mem_pysplit_not_sep '_' key c hcmem
            rw [he]
            exact hnc
      · simp at h

theorem mem_reducer_final_output (key : PyStr) (vs : List Out2Msg)
    (r : FinalRow) (h : r ∈ reducer_final_output key vs) :
    Out2Msg.row r ∈ vs := by
  unfold reducer_final_output at h
  split at h
  · simp at h
  · have hmem : r ∈ vs.filterMap Out2Msg.toRow := List.mem_mergeSort.mp h
    obtain ⟨v, hv, hfv⟩ := List.mem_filterMap.mp hmem
    cases v with
    | row r' =>
      simp only [Out2Msg.toRow, Option.some.injEq] at hfv
      exact hfv ▸ hv
    | err m => simp [Out2Msg.toRow] at hfv

theorem mem_reducer_seasonal_analysis (key : PyStr) (vs : List Enh2Msg)
    (srow : SeasonalRow) (h : srow ∈ reducer_seasonal_analysis key vs) :
    ∃ e : EnhancedStat, Enh2Msg.enh e ∈ vs ∧ srow.city = e.city := by
  unfold reducer_seasonal_analysis at h
  split at h
  · simp at h
  · dsimp only at h
    split at h
    · simp at h
    · rename_i hh tt hsd
      simp only [List.mem_singleton] at h
      have hmem : hh ∈ vs.filterMap Enh2Msg.toEnh := by
        rw [hsd]
        exact List.mem_cons_self _ _
      obtain ⟨v, hv, hfv⟩ := List.mem_filterMap.mp hmem
      cases v with
      | enh e' =>
        simp only [Enh2Msg.toEnh, Option.some.injEq] at hfv
        refine ⟨hh, ?_, ?_⟩
        · exact hfv ▸ hv
        · rw [h]
      | err m => simp [Enh2Msg.toEnh] at hfv

theorem tempStage2_city (pairs : List (PyStr × TempStats)) (r : FinalRow)
    (hr : r ∈ tempStage2 pairs) : '_' ∉ r.city := by
  unfold tempStage2 tempReduce2 at hr
  obtain ⟨g, hg, hrg⟩ := List.mem_flatMap.mp hr
  have hrow : Out2Msg.row r ∈ g.2 := mem_reducer_final_output g.1 g.2 r hrg
  have hpair : (g.1, Out2Msg.row r) ∈
      pairs.flatMap (fun p => mapper_format_output p.1 p.2) :=
    mem_of_mem_groupByKey _ g.1 g.2 _ (by exact hg) hrow
  obtain ⟨p, _, hmem⟩ := List.mem_flatMap.mp hpair
  exact mapper_format_output_row_city p.1 p.2 g.1 r hmem

theorem precStage2_city (pairs : List (PyStr × Prec2Msg)) (srow : SeasonalRow)
    (hr : srow ∈ precStage2 pairs) : '_' ∉ srow.city := by
  unfold precStage2 precReduce2 at hr
  obtain ⟨g, hg, hrg⟩ := List.mem_flatMap.mp hr
  obtain ⟨e, henh, hcity⟩ := mem_reducer_seasonal_analysis g.1 g.2 srow hrg
  have hpair : (g.1, Enh2Msg.enh e) ∈
      pairs.flatMap (fun p => mapper_add_season p.1 p.2) :=
    mem_of_mem_groupByKey _ g.1 g.2 _ (by exact hg) henh
  obtain ⟨p, _, hmem⟩ := List.mem_flatMap.mp hpair
  rw [hcity]
  exact mapper_add_season_enh_city p.1 p.2 g.1 e hmem

/-! ### Claims -/

/-- C3: `get_season` is a pure total function on month numbers 1..12 whose
four buckets {12,1,2}, {3,4,5}, {6,7,8}, {9,10,11} map to four distinct
season labels and partition {1..12} exactly: every month in 1..12 receives
exactly one label, with no gaps and no overlaps. -/
theorem c3_get_season_partition :
    ("Verano".data ≠ "Transición".data ∧ "Verano".data ≠ "Invierno".data ∧
      "Verano".data ≠ "Lluvias_Tardías".data ∧
      "Transición".data ≠ "Invierno".data ∧
      "Transición".data ≠ "Lluvias_Tardías".data ∧
      "Invierno".data ≠ "Lluvias_Tardías".data) ∧
    ∀ m : ℕ, 1 ≤ m → m ≤ 12 →
      (get_season m = "Verano".data ↔ m ∈ ([12, 1, 2] : List ℕ)) ∧
      (get_season m = "Transición".data ↔ m ∈ ([3, 4, 5] : List ℕ)) ∧
      (get_season m = "Invierno".data ↔ m ∈ ([6, 7, 8] : List ℕ)) ∧
      (get_season m = "Lluvias_Tardías".data ↔ m ∈ ([9, 10, 11] : List ℕ)) := by
  refine ⟨by decide, ?_⟩
  intro m h1 h2
  interval_cases m <;> exact ⟨by decide, by decide, by decide, by decide⟩

/-- C3 witness: the partition property evaluated at month 4. -/
theorem c3_witness :
    (get_season 4 = "Transición".data ↔ 4 ∈ ([3, 4, 5] : List ℕ)) ∧
    (get_season 4 = "Verano".data ↔ 4 ∈ ([12, 1, 2] : List ℕ)) :=
  ⟨(c3_get_season_partition.2 4 (by decide) (by decide)).2.1,
    (c3_get_season_partition.2 4 (by decide) (by decide)).1⟩

/-- C5 counterexample: a 6-field line produces NO emission at all — in
particular no `ParseError` record on the reserved error channel — in both
pipelines, contradicting the claim that a `ShapeMismatch` error is routed
to the error channel rather than the line being dropped silently. -/
theorem c5_counterexample :
    mapper_parse_data "2023-06-15,25.0,15.0,20.0,5.0,3.0".data = [] ∧
    mapper_parse_precipitation "2023-06-15,25.0,15.0,20.0,5.0,3.0".data = [] := by
  exact ⟨by decide, by decide⟩

/-- C5 amended: a line with fewer than 8 positional fields is silently
dropped by both stage-1 mappers: the mapper emits nothing — no error
record — so such a line is never mixed into a valid group and produces no
record on any channel. -/
theorem c5_amended (line : PyStr) (h : (pysplit ',' line).length < 8) :
    mapper_parse_data line = [] ∧ mapper_parse_precipitation line = [] := by
  constructor
  · unfold mapper_parse_data
    split
    · rfl
    · dsimp only
      rw [if_pos h]
  · unfold mapper_parse_precipitation
    split
    · rfl
    · dsimp only
      rw [if_pos h]

/-- C5 witness: the amended statement evaluated on a concrete 7-field line. -/
theorem c5_witness :
    mapper_parse_data "2023-06-15,25.0,15.0,20.0,5.0,3.0,100.0".data = [] ∧
    mapper_parse_precipitation "2023-06-15,25.0,15.0,20.0,5.0,3.0,100.0".data = [] :=
  c5_amended "2023-06-15,25.0,15.0,20.0,5.0,3.0,100.0".data (by decide)

/-- C4 counterexample: the stage-1 grouping key is a concatenated string,
and for the city `San_Pedro` (which contains the separator) splitting the
key back does not recover the three components: the split has four parts,
so stage 2 cannot re-derive `(city, year, month)`, and the stage-2 mapper
reroutes the record to the error key instead. -/
theorem c4_counterexample :
    pysplit '_' (mkMonthKey "San_Pedro".data 2023 6) ≠
      ["San_Pedro".data, toDec 2023, month2 6] ∧
    mapper_format_output (mkMonthKey "San_Pedro".data 2023 6)
        ⟨[], 0, 0, 0, 0, 0, 0⟩ =
      [(sERROR, Out2Msg.err fmtErrMsg)] := by
  exact ⟨by decide, by decide⟩

/-- C4 amended: the grouping key is the separator-joined string
`f"{city}_{year}_{month:02d}"`, not a structured tuple.  For every city
name that does not contain the separator, stage 2's parse-back is exact:
the split recovers the three component strings and re-parsing them yields
the original year and month.  For a city name containing the separator the
split does not have three parts, so parse-back fails. -/
theorem c4_amended (city : PyStr) (y m : ℕ) (hc : '_' ∉ city) :
    pysplit '_' (mkMonthKey city y m) = [city, toDec y, month2 m] ∧
    parseDec (toDec y) = some y ∧ parseDec (month2 m) = some m ∧
    ∀ city' : PyStr, '_' ∈ city' →
      (pysplit '_' (mkMonthKey city' y m)).length ≠ 3 :=
  ⟨pysplit_mkMonthKey city y m hc, parseDec_toDec y, parseDec_month2 m,
    fun city' h' => pysplit_mkMonthKey_underscore_city city' y m h'⟩

/-- C4 witness: parse-back of the key of (Bogota, 2023, 06), and split
failure for `San_Pedro`. -/
theorem c4_witness :
    pysplit '_' (mkMonthKey "Bogota".data 2023 6) =
      ["Bogota".data, toDec 2023, month2 6] ∧
    parseDec (toDec 2023) = some 2023 ∧ parseDec (month2 6) = some 6 ∧
    (pysplit '_' (mkMonthKey "San_Pedro".data 2023 6)).length ≠ 3 := by
  have h := c4_amended "Bogota".data 2023 6 (by decide)
  exact ⟨h.1, h.2.1, h.2.2.1, h.2.2.2 "San_Pedro".data (by decide)⟩

theorem filterMap_toData_map (l : List DailyTemp) :
    (l.map TempMsg.data).filterMap TempMsg.toData = l := by
  induction l with
  | nil => rfl
  | cons x xs ih => simp [List.filterMap_cons, TempMsg.toData, ih]

theorem filterMap_toEnh_map (l : List EnhancedStat) :
    (l.map Enh2Msg.enh).filterMap Enh2Msg.toEnh = l := by
  induction l with
  | nil => rfl
  | cons x xs ih => simp [List.filterMap_cons, Enh2Msg.toEnh, ih]

theorem reducer_aggregate_temps_map_data (key : PyStr) (l : List DailyTemp)
    (hkey : key ≠ sERROR) (hne : l ≠ []) :
    reducer_aggregate_temps key (l.map TempMsg.data) =
      [(key,
        ⟨key,
          round2 ((l.map DailyTemp.tempMax).sum / (l.length : ℚ)),
          round2 ((l.map DailyTemp.tempMin).sum / (l.length : ℚ)),
          round2 ((l.map DailyTemp.tempMean).sum / (l.length : ℚ)),
          round2 (pymax (l.map DailyTemp.tempMax)),
          round2 (pymin (l.map DailyTemp.tempMin)),
          (l.map DailyTemp.count).sum⟩)] := by
  unfold reducer_aggregate_temps
  rw [if_neg hkey]
  dsimp only
  rw [filterMap_toData_map,
    if_neg (fun hem : l.isEmpty = true => hne (List.isEmpty_iff.mp hem))]

/-- C1 counterexample: a one-day June group whose daily max is `30.005`
aggregates to `max_temp_recorded = 30` (the code rounds the maximum to two
decimals), which differs from the maximum of the daily max values. -/
theorem c1_counterexample :
    reducer_aggregate_temps "Bogota_2023_06".data
        (([⟨6001/200, 20, 25, 1⟩] : List DailyTemp).map TempMsg.data) =
      [("Bogota_2023_06".data,
        ⟨"Bogota_2023_06".data, 30, 20, 25, 30, 20, 1⟩)] ∧
    pymax (([⟨6001/200, 20, 25, 1⟩] : List DailyTemp).map DailyTemp.tempMax) =
      6001/200 ∧
    (6001/200 : ℚ) ≠ 30 := by
  refine ⟨?_, by norm_num [pymax, pyfold], by norm_num⟩
  rw [reducer_aggregate_temps_map_data "Bogota_2023_06".data _ (by decide)
    (by decide)]
  norm_num [pymax, pymin, pyfold, round2, rhalfEven, Int.floor_eq_iff]

/-- C1 amended: for every (city, year, month) group built from N valid
daily temperature records (each contributing `count = 1`), the monthly
aggregator outputs `days_recorded = N`, the three averages rounded to two
decimals (round-half-to-even), and `max_temp_recorded` /
`min_temp_recorded` equal to the max of the daily max values and the min
of the daily min values, each ALSO rounded to two decimals. -/
theorem c1_amended (key : PyStr) (l : List DailyTemp) (hkey : key ≠ sERROR)
    (hne : l ≠ []) (hcount : ∀ d ∈ l, d.count = 1) :
    reducer_aggregate_temps key (l.map TempMsg.data) =
      [(key,
        ⟨key,
          round2 ((l.map DailyTemp.tempMax).sum / (l.length : ℚ)),
          round2 ((l.map DailyTemp.tempMin).sum / (l.length : ℚ)),
          round2 ((l.map DailyTemp.tempMean).sum / (l.length : ℚ)),
          round2 (pymax (l.map DailyTemp.tempMax)),
          round2 (pymin (l.map DailyTemp.tempMin)),
          l.length⟩)] := by
  rw [reducer_aggregate_temps_map_data key l hkey hne,
    sum_map_count_one l hcount]

/-- C1 witness: the amended statement on a concrete two-day group. -/
theorem c1_witness :
    reducer_aggregate_temps "Bogota_2023_06".data
        (([⟨30, 20, 25, 1⟩, ⟨32, 22, 27, 1⟩] : List DailyTemp).map
          TempMsg.data) =
      [("Bogota_2023_06".data,
        ⟨"Bogota_2023_06".data,
          round2 ((([⟨30, 20, 25, 1⟩, ⟨32, 22, 27, 1⟩] : List DailyTemp).map
            DailyTemp.tempMax).sum / 2),
          round2 ((([⟨30, 20, 25, 1⟩, ⟨32, 22, 27, 1⟩] : List DailyTemp).map
            DailyTemp.tempMin).sum / 2),
          round2 ((([⟨30, 20, 25, 1⟩, ⟨32, 22, 27, 1⟩] : List DailyTemp).map
            DailyTemp.tempMean).sum / 2),
          round2 (pymax (([⟨30, 20, 25, 1⟩, ⟨32, 22, 27, 1⟩] : List DailyTemp).map
            DailyTemp.tempMax)),
          round2 (pymin (([⟨30, 20, 25, 1⟩, ⟨32, 22, 27, 1⟩] : List DailyTemp).map
            DailyTemp.tempMin)),
          2⟩)] :=
  c1_amended "Bogota_2023_06".data _ (by decide) (by decide) (by decide)

theorem reducer_seasonal_analysis_map_enh (key : PyStr) (h : EnhancedStat)
    (t : List EnhancedStat) (hkey : key ≠ sERROR) :
    reducer_seasonal_analysis key ((h :: t).map Enh2Msg.enh) =
      [⟨h.city, h.year, h.season,
        round2 (((h :: t).map (fun e => e.stat.monthlyTotal)).sum),
        round2 ((((h :: t).map (fun e => e.stat.monthlyTotal)).sum) /
          (((h :: t).length : ℚ))),
        round2 (pymax ((h :: t).map (fun e => e.stat.monthlyTotal))),
        ((h :: t).map (fun e => e.stat.daysWithRain)).sum,
        (h :: t).length⟩] := by
  unfold reducer_seasonal_analysis
  rw [if_neg hkey]
  dsimp only
  rw [filterMap_toEnh_map]

/-- C2: for every seasonal group of MonthlyPrecipitationStat records
sharing one key, with S monthly records actually present (here written as
a head and tail, so S ≥ 1), the seasonal aggregator outputs
`avg_monthly_precipitation = round(sum of monthly_total / S, 2)` and
`months_in_season = S` — dividing by the actual count S even when S is
less than the 3-month calendar season length — together with the sum of
`monthly_total`, the sum of `days_with_rain`, and the max of
`monthly_total` over the group.  The hypothesis that every `monthly_total`
is a whole number of hundredths holds for every real
MonthlyPrecipitationStat, whose `monthly_total` was produced by stage 1
already rounded to 2 decimals. -/
theorem c2_seasonal_average (key : PyStr) (h : EnhancedStat)
    (t : List EnhancedStat) (hkey : key ≠ sERROR)
    (hcent : ∀ e ∈ h :: t, ∃ z : ℤ, e.stat.monthlyTotal = (z : ℚ) / 100) :
    reducer_seasonal_analysis key ((h :: t).map Enh2Msg.enh) =
      [⟨h.city, h.year, h.season,
        ((h :: t).map (fun e => e.stat.monthlyTotal)).sum,
        round2 ((((h :: t).map (fun e => e.stat.monthlyTotal)).sum) /
          (((h :: t).length : ℚ))),
        pymax ((h :: t).map (fun e => e.stat.monthlyTotal)),
        ((h :: t).map (fun e => e.stat.daysWithRain)).sum,
        (h :: t).length⟩] := by
  rw [reducer_seasonal_analysis_map_enh key h t hkey]
  have hmap : ∀ x ∈ (h :: t).map (fun e => e.stat.monthlyTotal),
      ∃ z : ℤ, x = (z : ℚ) / 100 := by
    intro x hx
    obtain ⟨e, he, rfl⟩ := List.mem_map.mp hx
    exact hcent e he
  rw [round2_cent _ (cent_sum _ hmap),
    round2_cent _ (cent_pymax _ (by simp) hmap)]

/-- C2 witness: a two-month wet season (S = 2, fewer than the 3 calendar
months) divides by 2. -/
theorem c2_witness :
    reducer_seasonal_analysis "Bogota_Invierno_2023".data
        (([⟨"Bogota".data, 2023, 6, "Invierno".data, ⟨5, 2, 3, 1, 4⟩⟩,
            ⟨"Bogota".data, 2023, 7, "Invierno".data, ⟨7, 3, 4, 2, 5⟩⟩] :
          List EnhancedStat).map Enh2Msg.enh) =
      [⟨"Bogota".data, 2023, "Invierno".data,
        (([⟨"Bogota".data, 2023, 6, "Invierno".data, ⟨5, 2, 3, 1, 4⟩⟩,
            ⟨"Bogota".data, 2023, 7, "Invierno".data, ⟨7, 3, 4, 2, 5⟩⟩] :
          List EnhancedStat).map (fun e => e.stat.monthlyTotal)).sum,
        round2 (((([⟨"Bogota".data, 2023, 6, "Invierno".data, ⟨5, 2, 3, 1, 4⟩⟩,
            ⟨"Bogota".data, 2023, 7, "Invierno".data, ⟨7, 3, 4, 2, 5⟩⟩] :
          List EnhancedStat).map (fun e => e.stat.monthlyTotal)).sum) / 2),
        pymax (([⟨"Bogota".data, 2023, 6, "Invierno".data, ⟨5, 2, 3, 1, 4⟩⟩,
            ⟨"Bogota".data, 2023, 7, "Invierno".data, ⟨7, 3, 4, 2, 5⟩⟩] :
          List EnhancedStat).map (fun e => e.stat.monthlyTotal)),
        (([⟨"Bogota".data, 2023, 6, "Invierno".data, ⟨5, 2, 3, 1, 4⟩⟩,
            ⟨"Bogota".data, 2023, 7, "Invierno".data, ⟨7, 3, 4, 2, 5⟩⟩] :
          List EnhancedStat).map (fun e => e.stat.daysWithRain)).sum,
        2⟩] := by
  refine c2_seasonal_average "Bogota_Invierno_2023".data _ _ (by decide) ?_
  intro e he
  rcases List.mem_cons.mp he with rfl | he
  · exact ⟨500, by norm_num⟩
  · rcases List.mem_singleton.mp he with rfl
    exact ⟨700, by norm_num⟩

/-- C9: records routed to the reserved error key are discarded at reduce
time by every reducer and never appear in any output, and a malformed line
never aborts the aggregation of sibling keys: appending a line whose
mapper emissions (if any) all carry the error key leaves the stage-1
output — and consequently the whole pipeline output — unchanged. -/
theorem c9_error_records_discarded :
    (∀ vs, reducer_aggregate_temps sERROR vs = []) ∧
    (∀ vs, reducer_monthly_totals sERROR vs = []) ∧
    (∀ vs, reducer_seasonal_analysis sERROR vs = []) ∧
    (∀ vs, reducer_final_output sERROR vs = []) ∧
    (∀ (lines : List PyStr) (bad : PyStr),
      (∀ p ∈ mapper_parse_data bad, p.1 = sERROR) →
      tempStage1 (lines ++ [bad]) = tempStage1 lines ∧
      tempPipeline (lines ++ [bad]) = tempPipeline lines) ∧
    (∀ (lines : List PyStr) (bad : PyStr),
      (∀ p ∈ mapper_parse_precipitation bad, p.1 = sERROR) →
      precStage1 (lines ++ [bad]) = precStage1 lines ∧
      precPipeline (lines ++ [bad]) = precPipeline lines) := by
  refine ⟨reducer_aggregate_temps_err, reducer_monthly_totals_err,
    reducer_seasonal_analysis_err, reducer_final_output_err, ?_, ?_⟩
  · intro lines bad hbad
    have h1 := tempStage1_append_err_line lines bad hbad
    exact ⟨h1, by unfold tempPipeline; rw [h1]⟩
  · intro lines bad hbad
    have h1 := precStage1_append_err_line lines bad hbad
    exact ⟨h1, by unfold precPipeline; rw [h1]⟩

/-- C9 witness: dropping a 6-field line leaves the stage-1 and pipeline
outputs of a batch unchanged, and each reducer discards the error key. -/
theorem c9_witness :
    reducer_aggregate_temps sERROR [TempMsg.data ⟨30, 20, 25, 1⟩] = [] ∧
    reducer_monthly_totals sERROR [5] = [] ∧
    reducer_seasonal_analysis sERROR [] = [] ∧
    reducer_final_output sERROR [] = [] ∧
    tempStage1 (["2023-06-15,30.0,20.0,25.0,5.0,3.0,100.0,Bogota".data] ++
        ["2023-06-16,31.0,21.0,26.0,5.0,3.0".data]) =
      tempStage1 ["2023-06-15,30.0,20.0,25.0,5.0,3.0,100.0,Bogota".data] ∧
    precPipeline (["2023-06-15,30.0,20.0,25.0,5.0,3.0,100.0,Bogota".data] ++
        ["2023-06-16,31.0,21.0,26.0,5.0,3.0".data]) =
      precPipeline ["2023-06-15,30.0,20.0,25.0,5.0,3.0,100.0,Bogota".data] :=
  ⟨c9_error_records_discarded.1 _, c9_error_records_discarded.2.1 _,
    c9_error_records_discarded.2.2.1 _, c9_error_records_discarded.2.2.2.1 _,
    (c9_error_records_discarded.2.2.2.2.1 _ _ (by decide)).1,
    (c9_error_records_discarded.2.2.2.2.2 _ _ (by decide)).2⟩

theorem reducer_aggregate_temps_mem (key : PyStr) (vs : List TempMsg)
    (k : PyStr) (s : TempStats)
    (h : (k, s) ∈ reducer_aggregate_temps key vs) :
    k = key ∧ key ≠ sERROR ∧ vs.filterMap TempMsg.toData ≠ [] ∧
      s.totalDays = ((vs.filterMap TempMsg.toData).map DailyTemp.count).sum := by
  unfold reducer_aggregate_temps at h
  split at h
  · simp at h
  · rename_i hk
    dsimp only at h
    split at h
    · simp at h
    · rename_i hem
      simp only [List.mem_singleton] at h
      injection h with hk2 hs
      refine ⟨hk2, hk, fun hnil => hem (by rw [hnil]; rfl), ?_⟩
      rw [hs]

theorem reducer_monthly_totals_eq (key : PyStr) (values : List ℚ)
    (hkey : key ≠ sERROR) :
    reducer_monthly_totals key values =
      [(key,
        Prec2Msg.stat
          ⟨round2 values.sum,
            values.countP (fun v => decide (0 < v)),
            round2 (pymax values),
            round2 (if values.isEmpty then 0
              else values.sum / (values.length : ℚ)),
            values.length⟩)] := by
  unfold reducer_monthly_totals
  rw [if_neg hkey]

theorem reducer_monthly_totals_mem (key : PyStr) (vs : List ℚ)
    (k : PyStr) (v : Prec2Msg) (h : (k, v) ∈ reducer_monthly_totals key vs) :
    k = key ∧ key ≠ sERROR ∧
      ∃ st : MonthlyPrecStat, v = Prec2Msg.stat st ∧ st.totalDays = vs.length := by
  unfold reducer_monthly_totals at h
  split at h
  · simp at h
  · rename_i hk
    simp only [List.mem_singleton] at h
    injection h with hk2 hv
    exact ⟨hk2, hk, _, hv, rfl⟩

theorem reducer_seasonal_analysis_mem (key : PyStr) (vs : List Enh2Msg)
    (row : SeasonalRow) (h : row ∈ reducer_seasonal_analysis key vs) :
    row.monthsInSeason = (vs.filterMap Enh2Msg.toEnh).length ∧
      vs.filterMap Enh2Msg.toEnh ≠ [] := by
  unfold reducer_seasonal_analysis at h
  split at h
  · simp at h
  · dsimp only at h
    split at h
    · simp at h
    · rename_i hh tt hsd
      simp only [List.mem_singleton] at h
      subst h
      constructor
      · rw [hsd]
      · rw [hsd]
        simp

theorem tempReduce1_totalDays (pairs : List (PyStr × TempMsg)) (k : PyStr)
    (s : TempStats) (hmem : (k, s) ∈ tempReduce1 pairs)
    (hshape : ∀ p ∈ pairs, p.1 = sERROR ∨
      ∃ d, p.2 = TempMsg.data d ∧ d.count = 1) :
    0 < s.totalDays := by
  unfold tempReduce1 at hmem
  obtain ⟨g, hg, hred⟩ := List.mem_flatMap.mp hmem
  obtain ⟨hk, hkey, hne, hdays⟩ := reducer_aggregate_temps_mem g.1 g.2 k s hred
  have hcount : ∀ d ∈ g.2.filterMap TempMsg.toData, d.count = 1 := by
    intro d hd
    obtain ⟨v, hv, hfv⟩ := List.mem_filterMap.mp hd
    have hp : (g.1, v) ∈ pairs := mem_of_mem_groupByKey pairs g.1 g.2 v hg hv
    rcases hshape (g.1, v) hp with hke | ⟨d', hd', hc⟩
    · exact absurd hke hkey
    · subst hd'
      simp only [TempMsg.toData, Option.some.injEq] at hfv
      exact hfv ▸ hc
  rw [hdays, sum_map_count_one _ hcount]
  exact List.length_pos.mpr hne

theorem precReduce1_stat (pairs : List (PyStr × PrecMsg)) (k : PyStr)
    (v : Prec2Msg) (hmem : (k, v) ∈ precReduce1 pairs)
    (hshape : ∀ p ∈ pairs, p.1 = sERROR ∨ ∃ q, p.2 = PrecMsg.val q) :
    ∃ st : MonthlyPrecStat, v = Prec2Msg.stat st ∧ 0 < st.totalDays := by
  unfold precReduce1 at hmem
  obtain ⟨g, hg, hred⟩ := List.mem_flatMap.mp hmem
  obtain ⟨hk, hkey, st, hv, hdays⟩ := reducer_monthly_totals_mem g.1 _ k v hred
  refine ⟨st, hv, ?_⟩
  rw [hdays]
  have hval : ∀ m ∈ g.2, ∃ q, m = PrecMsg.val q := by
    intro m hm
    rcases hshape (g.1, m) (mem_of_mem_groupByKey pairs g.1 g.2 m hg hm) with
      hke | hq
    · exact absurd hke hkey
    · exact hq
  rw [filterMap_toVal_length g.2 hval]
  exact List.length_pos.mpr (mem_groupByKey_nonempty pairs g hg)

/-- C8: no output key ever has a zero-length contributing group: grouping
only ever creates inhabited groups; the stage-1 mappers emit either an
error-keyed record or a valid value (`count = 1` / a plain float); the
temperature reduce phase, fed such pairs, only emits records whose
`days_recorded` is strictly positive (equal to the group size, the
divisor of its averages); the precipitation reduce phase likewise only
emits records with strictly positive `total_days` (its mean's divisor);
and every seasonal record has strictly positive `months_in_season` (the
divisor of the seasonal average). -/
theorem c8_no_zero_groups :
    (∀ (V : Type) (ps : List (PyStr × V)) (g : PyStr × List V),
      g ∈ groupByKey ps → g.2 ≠ []) ∧
    (∀ (line : PyStr) (p : PyStr × TempMsg), p ∈ mapper_parse_data line →
      p.1 = sERROR ∨ ∃ d, p.2 = TempMsg.data d ∧ d.count = 1) ∧
    (∀ (line : PyStr) (p : PyStr × PrecMsg),
      p ∈ mapper_parse_precipitation line →
      p.1 = sERROR ∨ ∃ q, p.2 = PrecMsg.val q) ∧
    (∀ (pairs : List (PyStr × TempMsg)) (k : PyStr) (s : TempStats),
      (k, s) ∈ tempReduce1 pairs →
      (∀ p ∈ pairs, p.1 = sERROR ∨ ∃ d, p.2 = TempMsg.data d ∧ d.count = 1) →
      0 < s.totalDays) ∧
    (∀ (pairs : List (PyStr × PrecMsg)) (k : PyStr) (v : Prec2Msg),
      (k, v) ∈ precReduce1 pairs →
      (∀ p ∈ pairs, p.1 = sERROR ∨ ∃ q, p.2 = PrecMsg.val q) →
      ∃ st, v = Prec2Msg.stat st ∧ 0 < st.totalDays) ∧
    (∀ (key : PyStr) (vs : List Enh2Msg) (row : SeasonalRow),
      row ∈ reducer_seasonal_analysis key vs → 0 < row.monthsInSeason) := by
  refine ⟨?_, ?_, ?_, ?_, ?_, ?_⟩
  · intro V ps g hg
    exact mem_groupByKey_nonempty ps g hg
  · intro line p hp
    rcases mapper_parse_data_shape line p.1 p.2 hp with ⟨hk, _⟩ |
      ⟨c, y, mo, d, hk, hv, hc, _, _⟩
    · exact Or.inl hk
    · exact Or.inr ⟨d, hv, hc⟩
  · intro line p hp
    rcases mapper_parse_precipitation_shape line p.1 p.2 hp with ⟨hk, _⟩ |
      ⟨c, y, mo, q, hk, hv, _, _⟩
    · exact Or.inl hk
    · exact Or.inr ⟨q, hv⟩
  · intro pairs k s hmem hshape
    exact tempReduce1_totalDays pairs k s hmem hshape
  · intro pairs k v hmem hshape
    exact precReduce1_stat pairs k v hmem hshape
  · intro key vs row hrow
    have h := reducer_seasonal_analysis_mem key vs row hrow
    rw [h.1]
    exact List.length_pos.mpr h.2

/-- C8 witness: concrete instances of every conjunct — a singleton group,
an error-keyed emission of each mapper on a bad-date line, and positive
divisors in each reduce output on one-record groups. -/
theorem c8_witness :
    (("a".data, [(5 : ℚ)]) : PyStr × List ℚ).2 ≠ [] ∧
    ((sERROR, TempMsg.err procErrMsg).1 = sERROR ∨
      ∃ d, (sERROR, TempMsg.err procErrMsg).2 = TempMsg.data d ∧ d.count = 1) ∧
    ((sERROR, PrecMsg.err parse2ErrMsg).1 = sERROR ∨
      ∃ q, (sERROR, PrecMsg.err parse2ErrMsg).2 = PrecMsg.val q) ∧
    0 < (([⟨30, 20, 25, 1⟩] : List DailyTemp).map DailyTemp.count).sum ∧
    (∃ st, Prec2Msg.stat
        ⟨round2 ([(5 : ℚ)]).sum,
          ([(5 : ℚ)]).countP (fun v => decide (0 < v)),
          round2 (pymax [(5 : ℚ)]),
          round2 (if ([(5 : ℚ)]).isEmpty then 0
            else ([(5 : ℚ)]).sum / (([(5 : ℚ)]).length : ℚ)),
          ([(5 : ℚ)]).length⟩ = Prec2Msg.stat st ∧ 0 < st.totalDays) ∧
    0 < (([⟨"Bogota".data, 2023, 6, "Invierno".data, ⟨5, 2, 3, 1, 4⟩⟩] :
      List EnhancedStat)).length := by
  refine ⟨?_, ?_, ?_, ?_, ?_, ?_⟩
  · exact c8_no_zero_groups.1 ℚ [("a".data, 5)] _ (by decide)
  · exact c8_no_zero_groups.2.1 "bad,1,2,3,4,5,6,Bogota".data _ (by decide)
  · exact c8_no_zero_groups.2.2.1 "bad,1,2,3,4,5,6,Bogota".data _ (by decide)
  · have h0 : tempReduce1
        [("Bogota_2023_06".data, TempMsg.data ⟨30, 20, 25, 1⟩)] =
        reducer_aggregate_temps "Bogota_2023_06".data
          (([⟨30, 20, 25, 1⟩] : List DailyTemp).map TempMsg.data) := by
      simp [tempReduce1, groupByKey, insGroup]
    have h2 := c8_no_zero_groups.2.2.2.1
      [("Bogota_2023_06".data, TempMsg.data ⟨30, 20, 25, 1⟩)]
      "Bogota_2023_06".data _
      (by
        rw [h0, reducer_aggregate_temps_map_data "Bogota_2023_06".data
          [⟨30, 20, 25, 1⟩] (by decide) (by decide)]
        exact List.mem_singleton_self _)
      (by
        intro p hp
        rcases List.mem_singleton.mp hp with rfl
        exact Or.inr ⟨⟨30, 20, 25, 1⟩, rfl, rfl⟩)
    exact h2
  · have h0p : precReduce1 [("Bogota_2023_06".data, PrecMsg.val 5)] =
        reducer_monthly_totals "Bogota_2023_06".data [(5 : ℚ)] := by
      simp [precReduce1, groupByKey, insGroup, PrecMsg.toVal]
    have h5 := c8_no_zero_groups.2.2.2.2.1
      [("Bogota_2023_06".data, PrecMsg.val 5)] "Bogota_2023_06".data _
      (by
        rw [h0p, reducer_monthly_totals_eq "Bogota_2023_06".data [(5 : ℚ)]
          (by decide)]
        exact List.mem_singleton_self _)
      (by
        intro p hp
        rcases List.mem_singleton.mp hp with rfl
        exact Or.inr ⟨5, rfl⟩)
    exact h5
  · have h6 := c8_no_zero_groups.2.2.2.2.2 "Bogota_Invierno_2023".data
      [Enh2Msg.enh ⟨"Bogota".data, 2023, 6, "Invierno".data, ⟨5, 2, 3, 1, 4⟩⟩] _
      (by
        rw [show ([Enh2Msg.enh
            ⟨"Bogota".data, 2023, 6, "Invierno".data, ⟨5, 2, 3, 1, 4⟩⟩] :
            List Enh2Msg) =
          (([⟨"Bogota".data, 2023, 6, "Invierno".data, ⟨5, 2, 3, 1, 4⟩⟩] :
            List EnhancedStat).map Enh2Msg.enh) from rfl,
          reducer_seasonal_analysis_map_enh "Bogota_Invierno_2023".data
            ⟨"Bogota".data, 2023, 6, "Invierno".data, ⟨5, 2, 3, 1, 4⟩⟩ []
            (by decide)]
        exact List.mem_singleton_self _)
    exact h6

theorem mapper_format_output_ok (city : PyStr) (y m : ℕ) (s : TempStats)
    (hc : '_' ∉ city) (hm1 : 1 ≤ m) (hm2 : m ≤ 12) (hy1 : 1 ≤ y)
    (hy2 : y ≤ 9999) :
    mapper_format_output (mkMonthKey city y m) s =
      [(city ++ '_' :: toDec y,
        Out2Msg.row ⟨city, y, m, monthNameOf m, s⟩)] := by
  unfold mapper_format_output
  rw [if_neg (mkMonthKey_ne_sERROR city y m), pysplit_mkMonthKey city y m hc]
  dsimp only
  rw [parseDec_toDec y, parseDec_month2 m]
  dsimp only
  rw [if_pos ⟨hm1, hm2, hy1, hy2⟩]

theorem mapper_add_season_ok (city : PyStr) (y m : ℕ) (d : MonthlyPrecStat)
    (hc : '_' ∉ city) :
    mapper_add_season (mkMonthKey city y m) (Prec2Msg.stat d) =
      [(city ++ '_' :: (get_season m ++ '_' :: toDec y),
        Enh2Msg.enh ⟨city, y, m, get_season m, d⟩)] := by
  unfold mapper_add_season
  rw [if_neg (mkMonthKey_ne_sERROR city y m)]
  dsimp only
  rw [pysplit_mkMonthKey city y m hc]
  dsimp only
  rw [parseDec_month2 m, parseDec_toDec y]

theorem tempReduce1_singleton (k : PyStr) (v : TempMsg) :
    tempReduce1 [(k, v)] = reducer_aggregate_temps k [v] := by
  simp [tempReduce1, groupByKey, insGroup]

theorem precReduce1_singleton (k : PyStr) (q : ℚ) :
    precReduce1 [(k, PrecMsg.val q)] = reducer_monthly_totals k [q] := by
  simp [precReduce1, groupByKey, insGroup, PrecMsg.toVal]

theorem tempReduce2_singleton (k : PyStr) (v : Out2Msg) :
    tempReduce2 [(k, v)] = reducer_final_output k [v] := by
  simp [tempReduce2, groupByKey, insGroup]

theorem precReduce2_singleton (k : PyStr) (v : Enh2Msg) :
    precReduce2 [(k, v)] = reducer_seasonal_analysis k [v] := by
  simp [precReduce2, groupByKey, insGroup]

theorem reducer_final_output_singleton (k : PyStr) (r : FinalRow)
    (hk : k ≠ sERROR) : reducer_final_output k [Out2Msg.row r] = [r] := by
  unfold reducer_final_output
  rw [if_neg hk]
  simp [Out2Msg.toRow]

/-- C10: a valid daily record whose city name contains the underscore is
lost in stage 2 of both pipelines: the stage-2 mappers fail to split the
stage-1 string key back into exactly three components and reroute the
record to the error key, whose values every reducer silently drops — so
the final temperature and precipitation outputs contain no row for any
city name containing an underscore, even though such records parsed and
aggregated successfully in stage 1. -/
theorem c10_underscore_cities_dropped :
    (∀ (city : PyStr) (y m : ℕ) (s : TempStats), '_' ∈ city →
      mapper_format_output (mkMonthKey city y m) s =
        [(sERROR, Out2Msg.err fmtErrMsg)]) ∧
    (∀ (city : PyStr) (y m : ℕ) (d : MonthlyPrecStat), '_' ∈ city →
      mapper_add_season (mkMonthKey city y m) (Prec2Msg.stat d) =
        [(sERROR, Enh2Msg.err seasonErrMsg)]) ∧
    (∀ (pairs : List (PyStr × TempStats)) (r : FinalRow),
      r ∈ tempStage2 pairs → '_' ∉ r.city) ∧
    (∀ (pairs : List (PyStr × Prec2Msg)) (sr : SeasonalRow),
      sr ∈ precStage2 pairs → '_' ∉ sr.city) ∧
    (∀ (lines : List PyStr) (r : FinalRow),
      r ∈ tempPipeline lines → '_' ∉ r.city) ∧
    (∀ (lines : List PyStr) (sr : SeasonalRow),
      sr ∈ precPipeline lines → '_' ∉ sr.city) := by
  refine ⟨?_, ?_, ?_, ?_, ?_, ?_⟩
  · intro city y m s hc
    unfold mapper_format_output
    rw [if_neg (mkMonthKey_ne_sERROR city y m)]
    rcases hsp : pysplit '_' (mkMonthKey city y m) with
      _ | ⟨a, _ | ⟨b, _ | ⟨c3, _ | ⟨d4, rest⟩⟩⟩⟩
    · rfl
    · rfl
    · rfl
    · exact absurd
        (show (pysplit '_' (mkMonthKey city y m)).length = 3 by rw [hsp]; rfl)
        (pysplit_mkMonthKey_underscore_city city y m hc)
    · rfl
  · intro city y m d hc
    unfold mapper_add_season
    rw [if_neg (mkMonthKey_ne_sERROR city y m)]
    dsimp only
    rcases hsp : pysplit '_' (mkMonthKey city y m) with
      _ | ⟨a, _ | ⟨b, _ | ⟨c3, _ | ⟨d4, rest⟩⟩⟩⟩
    · rfl
    · rfl
    · rfl
    · exact absurd
        (show (pysplit '_' (mkMonthKey city y m)).length = 3 by rw [hsp]; rfl)
        (pysplit_mkMonthKey_underscore_city city y m hc)
    · rfl
  · intro pairs r hr
    exact tempStage2_city pairs r hr
  · intro pairs sr hr
    exact precStage2_city pairs sr hr
  · intro lines r hr
    exact tempStage2_city (tempStage1 lines) r hr
  · intro lines sr hr
    exact precStage2_city (precStage1 lines) sr hr

/-- C10 witness: the stage-2 mappers reroute the key of
(`San_Pedro`, 2023, 06) to the error key, and a concrete run of each whole
pipeline on one valid `Bogota` line yields rows whose city has no
underscore. -/
theorem c10_witness :
    mapper_format_output (mkMonthKey "San_Pedro".data 2023 6)
        ⟨[], 0, 0, 0, 0, 0, 0⟩ = [(sERROR, Out2Msg.err fmtErrMsg)] ∧
    mapper_add_season (mkMonthKey "San_Pedro".data 2023 6)
        (Prec2Msg.stat ⟨5, 2, 3, 1, 4⟩) =
      [(sERROR, Enh2Msg.err seasonErrMsg)] ∧
    '_' ∉ ("Bogota".data : PyStr) ∧ '_' ∉ ("Cali".data : PyStr) := by
  refine ⟨c10_underscore_cities_dropped.1 "San_Pedro".data 2023 6 _ (by decide),
    c10_underscore_cities_dropped.2.1 "San_Pedro".data 2023 6 _ (by decide),
    ?_, ?_⟩
  · have hex : ∃ r : FinalRow,
        r ∈ tempPipeline ["2023-06-15,30,20,25,5,3,100,Bogota".data] ∧
        r.city = "Bogota".data := by
      apply Exists.intro
      refine ⟨?_, ?_⟩
      · unfold tempPipeline tempStage2 tempStage1
        rw [show (["2023-06-15,30,20,25,5,3,100,Bogota".data].flatMap
            mapper_parse_data) =
            [(mkMonthKey "Bogota".data 2023 6, TempMsg.data ⟨30, 20, 25, 1⟩)]
          from by decide]
        rw [tempReduce1_singleton,
          show ([TempMsg.data ⟨30, 20, 25, 1⟩] : List TempMsg) =
            (([⟨30, 20, 25, 1⟩] : List DailyTemp).map TempMsg.data) from rfl,
          reducer_aggregate_temps_map_data _ _ (by decide) (by decide)]
        rw [show ∀ a : PyStr × TempStats, [a].flatMap
            (fun p => mapper_format_output p.1 p.2) =
            mapper_format_output a.1 a.2 from fun a => by simp]
        rw [mapper_format_output_ok "Bogota".data 2023 6 _ (by decide)
          (by decide) (by decide) (by decide) (by decide)]
        rw [tempReduce2_singleton, reducer_final_output_singleton _ _ (by decide)]
        exact List.mem_singleton_self _
      · rfl
    obtain ⟨r, hm, hcity⟩ := hex
    rw [← hcity]
    exact c10_underscore_cities_dropped.2.2.2.2.1 _ r hm
  · have hex : ∃ sr : SeasonalRow,
        sr ∈ precPipeline ["2023-06-15,30,20,25,5,3,100,Cali".data] ∧
        sr.city = "Cali".data := by
      apply Exists.intro
      refine ⟨?_, ?_⟩
      · unfold precPipeline precStage2 precStage1
        rw [show (["2023-06-15,30,20,25,5,3,100,Cali".data].flatMap
            mapper_parse_precipitation) =
            [(mkMonthKey "Cali".data 2023 6, PrecMsg.val 5)] from by decide]
        rw [precReduce1_singleton,
          reducer_monthly_totals_eq _ _ (by decide)]
        rw [show ∀ a : PyStr × Prec2Msg, [a].flatMap
            (fun p => mapper_add_season p.1 p.2) =
            mapper_add_season a.1 a.2 from fun a => by simp]
        rw [mapper_add_season_ok "Cali".data 2023 6 _ (by decide)]
        rw [precReduce2_singleton,
          show ∀ e : EnhancedStat, ([Enh2Msg.enh e] : List Enh2Msg) =
            (([e] : List EnhancedStat).map Enh2Msg.enh) from fun e => rfl,
          reducer_seasonal_analysis_map_enh _ _ [] (by decide)]
        exact List.mem_singleton_self _
      · rfl
    obtain ⟨sr, hm, hcity⟩ := hex
    rw [← hcity]
    exact c10_underscore_cities_dropped.2.2.2.2.2 _ sr hm

theorem append_sep_inj : ∀ a1 a2 b1 b2 : List Char, '_' ∉ a1 → '_' ∉ a2 →
    a1 ++ '_' :: b1 = a2 ++ '_' :: b2 → a1 = a2 ∧ b1 = b2 := by
  intro a1
  induction a1 with
  | nil =>
    intro a2 b1 b2 h1 h2 he
    cases a2 with
    | nil => simpa using he
    | cons c cs =>
      simp only [List.nil_append, List.cons_append, List.cons.injEq] at he
      exact absurd (he.1 ▸ List.mem_cons_self c cs) h2
  | cons c cs ih =>
    intro a2 b1 b2 h1 h2 he
    cases a2 with
    | nil =>
      simp only [List.cons_append, List.nil_append, List.cons.injEq] at he
      exact absurd (he.1 ▸ List.mem_cons_self c cs) h1
    | cons c2 cs2 =>
      simp only [List.cons_append, List.cons.injEq] at he
      obtain ⟨hc, hrest⟩ := he
      obtain ⟨hcs, hb⟩ := ih cs2 b1 b2
        (fun hm => h1 (List.mem_cons_of_mem c hm))
        (fun hm => h2 (List.mem_cons_of_mem c2 hm)) hrest
      exact ⟨by rw [hc, hcs], hb⟩

theorem toDec_inj (y1 y2 : ℕ) (h : toDec y1 = toDec y2) : y1 = y2 := by
  have hp := pval_toDec y1
  rw [h, pval_toDec y2] at hp
  exact hp.symm

theorem mem_insGroup_keys {K V : Type} [DecidableEq K] (k₁ : K) (v₁ : V)
    (acc : List (K × List V)) (g : K × List V) (h : g ∈ insGroup k₁ v₁ acc) :
    g.1 = k₁ ∨ ∃ vs', (g.1, vs') ∈ acc := by
  obtain ⟨gk, gv⟩ := g
  induction acc with
  | nil =>
    simp [insGroup] at h
    exact Or.inl h.1
  | cons a rest ih =>
    obtain ⟨k', vs'⟩ := a
    by_cases hk : k' = k₁
    · simp only [insGroup, if_pos hk] at h
      rcases List.mem_cons.mp h with h | h
      · injection h with h1 _
        exact Or.inl (h1.trans hk)
      · exact Or.inr ⟨gv, List.mem_cons_of_mem _ h⟩
    · simp only [insGroup, if_neg hk] at h
      rcases List.mem_cons.mp h with h | h
      · injection h with h1 _
        exact Or.inr ⟨vs', by rw [h1]; exact List.mem_cons_self _ _⟩
      · rcases ih h with h1 | ⟨vs₀, hm⟩
        · exact Or.inl h1
        · exact Or.inr ⟨vs₀, List.mem_cons_of_mem _ hm⟩

theorem insGroup_pairwise_keys {K V : Type} [DecidableEq K] (k : K) (v : V)
    (acc : List (K × List V))
    (h : acc.Pairwise (fun g g' => g.1 ≠ g'.1)) :
    (insGroup k v acc).Pairwise (fun g g' => g.1 ≠ g'.1) := by
  induction acc with
  | nil => simp [insGroup]
  | cons a rest ih =>
    obtain ⟨k', vs'⟩ := a
    rw [List.pairwise_cons] at h
    by_cases hk : k' = k
    · simp only [insGroup, if_pos hk]
      rw [List.pairwise_cons]
      exact ⟨fun g hg => h.1 g hg, h.2⟩
    · simp only [insGroup, if_neg hk]
      rw [List.pairwise_cons]
      refine ⟨?_, ih h.2⟩
      intro g hg
      rcases mem_insGroup_keys k v rest g hg with hgk | ⟨vs₀, hmem⟩
      · rw [hgk]
        exact hk
      · exact h.1 (g.1, vs₀) hmem

theorem groupByKey_pairwise_keys {K V : Type} [DecidableEq K]
    (ps : List (K × V)) :
    (groupByKey ps).Pairwise (fun g g' => g.1 ≠ g'.1) := by
  suffices h : ∀ acc : List (K × List V),
      acc.Pairwise (fun g g' => g.1 ≠ g'.1) →
      (ps.foldl (fun acc p => insGroup p.1 p.2 acc) acc).Pairwise
        (fun g g' => g.1 ≠ g'.1) from h [] (by simp)
  induction ps with
  | nil => intro acc hacc; exact hacc
  | cons p rest ih =>
    intro acc hacc
    rw [List.foldl_cons]
    exact ih _ (insGroup_pairwise_keys p.1 p.2 acc hacc)

theorem mem_insGroup_cases {K V : Type} [DecidableEq K] (k₁ : K) (v₁ : V)
    (acc : List (K × List V)) (k : K) (vs : List V)
    (h : (k, vs) ∈ insGroup k₁ v₁ acc) :
    (k, vs) ∈ acc ∨
      (k = k₁ ∧ (vs = [v₁] ∨ ∃ vs', vs = vs' ++ [v₁] ∧ (k, vs') ∈ acc)) := by
  induction acc with
  | nil =>
    simp [insGroup] at h
    exact Or.inr ⟨h.1, Or.inl h.2⟩
  | cons a rest ih =>
    obtain ⟨k', vs₀⟩ := a
    by_cases hk : k' = k₁
    · simp only [insGroup, if_pos hk] at h
      rcases List.mem_cons.mp h with h | h
      · injection h with h1 h2
        exact Or.inr ⟨h1.trans hk, Or.inr ⟨vs₀, h2,
          by rw [h1]; exact List.mem_cons_self _ _⟩⟩
      · exact Or.inl (List.mem_cons_of_mem _ h)
    · simp only [insGroup, if_neg hk] at h
      rcases List.mem_cons.mp h with h | h
      · exact Or.inl (by rw [h]; exact List.mem_cons_self _ _)
      · rcases ih h with hin | ⟨hkk, hcase⟩
        · exact Or.inl (List.mem_cons_of_mem _ hin)
        · refine Or.inr ⟨hkk, ?_⟩
          rcases hcase with h1 | ⟨vs', hv, hm⟩
          · exact Or.inl h1
          · exact Or.inr ⟨vs', hv, List.mem_cons_of_mem _ hm⟩

theorem foldl_ins_val_split {K V : Type} [DecidableEq K] (ps : List (K × V)) :
    ∀ (acc : List (K × List V)) (k : K) (vs : List V),
      (k, vs) ∈ ps.foldl (fun acc p => insGroup p.1 p.2 acc) acc →
      ∃ vs₀ vs₁, vs = vs₀ ++ vs₁ ∧ ((k, vs₀) ∈ acc ∨ vs₀ = []) ∧
        (vs₁.map (fun v => (k, v))).Sublist ps := by
  induction ps with
  | nil =>
    intro acc k vs h
    exact ⟨vs, [], by simp, Or.inl h, by simp⟩
  | cons p rest ih =>
    intro acc k vs h
    rw [List.foldl_cons] at h
    obtain ⟨vs₀, vs₁, hsplit, hcase, hsub⟩ := ih (insGroup p.1 p.2 acc) k vs h
    rcases hcase with hmem | rfl
    · rcases mem_insGroup_cases p.1 p.2 acc k vs₀ hmem with hin | ⟨hkk, hc⟩
      · exact ⟨vs₀, vs₁, hsplit, Or.inl hin, hsub.cons p⟩
      · rcases hc with h1 | ⟨vs', hv, hm⟩
        · refine ⟨[], p.2 :: vs₁, by rw [hsplit, h1]; rfl, Or.inr rfl, ?_⟩
          rw [List.map_cons, hkk]
          rw [hkk] at hsub
          exact List.Sublist.cons₂ _ hsub
        · refine ⟨vs', p.2 :: vs₁, by rw [hsplit, hv]; simp, Or.inl hm, ?_⟩
          rw [List.map_cons, hkk]
          rw [hkk] at hsub
          exact List.Sublist.cons₂ _ hsub
    · exact ⟨[], vs₁, hsplit, Or.inr rfl, hsub.cons p⟩

theorem groupByKey_val_sublist {K V : Type} [DecidableEq K]
    (ps : List (K × V)) (k : K) (vs : List V)
    (hg : (k, vs) ∈ groupByKey ps) :
    (vs.map (fun v => (k, v))).Sublist ps := by
  obtain ⟨vs₀, vs₁, hsplit, hcase, hsub⟩ := foldl_ins_val_split ps [] k vs hg
  rcases hcase with hmem | rfl
  · simp at hmem
  · rw [hsplit]
    simpa using hsub

theorem pairwise_of_length_le_one {α : Type} {R : α → α → Prop} (l : List α)
    (h : l.length ≤ 1) : l.Pairwise R := by
  cases l with
  | nil => exact List.Pairwise.nil
  | cons x xs =>
    cases xs with
    | nil => simp
    | cons y ys => simp at h

theorem pairwise_flatMap_of {α β : Type} {R : β → β → Prop} (l : List α)
    (f : α → List β) (hin : ∀ a ∈ l, (f a).Pairwise R)
    (hcross : l.Pairwise (fun a b => ∀ x ∈ f a, ∀ y ∈ f b, R x y)) :
    (l.flatMap f).Pairwise R := by
  induction l with
  | nil => simp
  | cons a rest ih =>
    rw [List.pairwise_cons] at hcross
    rw [List.flatMap_cons, List.pairwise_append]
    refine ⟨hin a (List.mem_cons_self _ _),
      ih (fun b hb => hin b (List.mem_cons_of_mem _ hb)) hcross.2, ?_⟩
    intro x hx y hy
    obtain ⟨b, hb, hy2⟩ := List.mem_flatMap.mp hy
    exact hcross.1 b hb x hx y hy2

theorem reducer_aggregate_temps_len (key : PyStr) (vs : List TempMsg) :
    (reducer_aggregate_temps key vs).length ≤ 1 := by
  unfold reducer_aggregate_temps
  split
  · simp
  · dsimp only
    split
    · simp
    · simp

theorem mapper_format_output_len (key : PyStr) (s : TempStats) :
    (mapper_format_output key s).length ≤ 1 := by
  unfold mapper_format_output
  split
  · simp
  · split
    · split
      · split
        · simp
        · simp
      · simp
    · simp

theorem flatMap_pairwise_keys {V O : Type}
    (gs : List (PyStr × List V)) (red : PyStr → List V → List (PyStr × O))
    (hred : ∀ k vs p, p ∈ red k vs → p.1 = k)
    (hlen : ∀ k vs, (red k vs).length ≤ 1)
    (hgs : gs.Pairwise (fun g g' => g.1 ≠ g'.1)) :
    (gs.flatMap (fun g => red g.1 g.2)).Pairwise (fun p q => p.1 ≠ q.1) := by
  refine pairwise_flatMap_of gs _ (fun g _ => pairwise_of_length_le_one _
    (hlen g.1 g.2)) ?_
  refine hgs.imp ?_
  intro g g' hne x hx y hy
  rw [hred g.1 g.2 x hx, hred g'.1 g'.2 y hy]
  exact hne

theorem tempStage1_pairwise_keys (lines : List PyStr) :
    (tempStage1 lines).Pairwise (fun p q => p.1 ≠ q.1) := by
  unfold tempStage1 tempReduce1
  exact flatMap_pairwise_keys _ _
    (fun k vs p hp => (reducer_aggregate_temps_mem k vs p.1 p.2 hp).1)
    (fun k vs => reducer_aggregate_temps_len k vs)
    (groupByKey_pairwise_keys _)

theorem tempStage1_key_shape (lines : List PyStr) (p : PyStr × TempStats)
    (hp : p ∈ tempStage1 lines) :
    ∃ city y mo, p.1 = mkMonthKey city y mo ∧ 1 ≤ mo ∧ mo ≤ 12 := by
  unfold tempStage1 tempReduce1 at hp
  obtain ⟨g, hg, hred⟩ := List.mem_flatMap.mp hp
  obtain ⟨hk, hkey, _, _⟩ := reducer_aggregate_temps_mem g.1 g.2 p.1 p.2 hred
  have hgne : g.2 ≠ [] := mem_groupByKey_nonempty _ g hg
  obtain ⟨v, hv⟩ := List.exists_mem_of_ne_nil g.2 hgne
  have hpair := mem_of_mem_groupByKey _ g.1 g.2 v hg hv
  obtain ⟨line, _, hmem⟩ := List.mem_flatMap.mp hpair
  rcases mapper_parse_data_shape line g.1 v hmem with ⟨hke, _⟩ |
    ⟨c, y, mo, d, hkk, _, _, hm1, hm2⟩
  · exact absurd hke hkey
  · exact ⟨c, y, mo, hk ▸ hkk, hm1, hm2⟩

theorem mapper_format_output_row_det (key : PyStr) (s : TempStats)
    (K : PyStr) (r : FinalRow)
    (h : (K, Out2Msg.row r) ∈ mapper_format_output key s) :
    ∃ c ys ms, pysplit '_' key = [c, ys, ms] ∧ K = c ++ '_' :: ys ∧
      parseDec ys = some r.year ∧ parseDec ms = some r.month := by
  unfold mapper_format_output at h
  by_cases hkey : key = sERROR
  · rw [if_pos hkey] at h
    simp at h
  · rw [if_neg hkey] at h
    rcases hsp : pysplit '_' key with _ | ⟨c, _ | ⟨ys, _ | ⟨ms, _ | ⟨d4, rest⟩⟩⟩⟩ <;>
      rw [hsp] at h <;> dsimp only at h
    · simp at h
    · simp at h
    · simp at h
    · cases hd1 : parseDec ys with
      | none => rw [hd1] at h; simp at h
      | some y =>
        rw [hd1] at h
        cases hd2 : parseDec ms with
        | none => rw [hd2] at h; simp at h
        | some m =>
          rw [hd2] at h
          dsimp only at h
          split at h
          · simp only [List.mem_singleton] at h
            injection h with hK hv
            injection hv with hr
            refine ⟨c, ys, ms, rfl, hK, ?_, ?_⟩
            · rw [hr]
              exact hd1
            · rw [hr]
              exact hd2
          · simp at h
    · simp at h

theorem tempStage2_group_months (lines : List PyStr) (K : PyStr)
    (vs : List Out2Msg)
    (hg : (K, vs) ∈ groupByKey ((tempStage1 lines).flatMap
      (fun p => mapper_format_output p.1 p.2))) :
    (vs.filterMap Out2Msg.toRow).Pairwise (fun a b => a.month ≠ b.month) := by
  have hP : ((tempStage1 lines).flatMap
      (fun p => mapper_format_output p.1 p.2)).Pairwise
      (fun x y => ∀ r1 r2, x.2 = Out2Msg.row r1 → y.2 = Out2Msg.row r2 →
        x.1 = y.1 → r1.month ≠ r2.month) := by
    refine pairwise_flatMap_of _ _
      (fun p _ => pairwise_of_length_le_one _ (mapper_format_output_len p.1 p.2))
      ?_
    refine List.Pairwise.imp_of_mem ?_ (tempStage1_pairwise_keys lines)
    intro p q hp hq hne x hx y hy r1 r2 hxr hyr hKeq
    obtain ⟨cityp, yp, mop, hkp, hmp1, hmp2⟩ := tempStage1_key_shape lines p hp
    obtain ⟨cityq, yq, moq, hkq, hmq1, hmq2⟩ := tempStage1_key_shape lines q hq
    rw [show x = (x.1, Out2Msg.row r1) from by rw [← hxr]] at hx
    rw [show y = (y.1, Out2Msg.row r2) from by rw [← hyr]] at hy
    obtain ⟨c1, ys1, ms1, hsp1, hK1, hy1, hmo1⟩ :=
      mapper_format_output_row_det p.1 p.2 x.1 r1 hx
    obtain ⟨c2, ys2, ms2, hsp2, hK2, hy2, hmo2⟩ :=
      mapper_format_output_row_det q.1 q.2 y.1 r2 hy
    have hcp : '_' ∉ cityp := by
      intro hu
      exact pysplit_mkMonthKey_underscore_city cityp yp mop hu
        (by rw [← hkp, hsp1]; rfl)
    have hcq : '_' ∉ cityq := by
      intro hu
      exact pysplit_mkMonthKey_underscore_city cityq yq moq hu
        (by rw [← hkq, hsp2]; rfl)
    have hparts1 : c1 = cityp ∧ ys1 = toDec yp ∧ ms1 = month2 mop := by
      have := hsp1.symm.trans (hkp ▸ pysplit_mkMonthKey cityp yp mop hcp)
      simp only [List.cons.injEq, and_true] at this
      exact ⟨this.1, this.2.1, this.2.2⟩
    have hparts2 : c2 = cityq ∧ ys2 = toDec yq ∧ ms2 = month2 moq := by
      have := hsp2.symm.trans (hkq ▸ pysplit_mkMonthKey cityq yq moq hcq)
      simp only [List.cons.injEq, and_true] at this
      exact ⟨this.1, this.2.1, this.2.2⟩
    intro hmonth
    have hr1m : r1.month = mop := by
      have := hmo1
      rw [hparts1.2.2, parseDec_month2] at this
      exact (Option.some.injEq .. ▸ this).symm
    have hr2m : r2.month = moq := by
      have := hmo2
      rw [hparts2.2.2, parseDec_month2] at this
      exact (Option.some.injEq .. ▸ this).symm
    have hmo : mop = moq := by rw [← hr1m, ← hr2m, hmonth]
    have hKK : cityp ++ '_' :: toDec yp = cityq ++ '_' :: toDec yq := by
      have h1 : x.1 = cityp ++ '_' :: toDec yp := by
        rw [hK1, hparts1.1, hparts1.2.1]
      have h2 : y.1 = cityq ++ '_' :: toDec yq := by
        rw [hK2, hparts2.1, hparts2.2.1]
      rw [← h1, ← h2, hKeq]
    obtain ⟨hcity, hysd⟩ := append_sep_inj cityp cityq (toDec yp) (toDec yq)
      hcp hcq hKK
    have hyy : yp = yq := toDec_inj yp yq hysd
    exact hne (by rw [hkp, hkq, hcity, hyy, hmo])
  have hsub := groupByKey_val_sublist _ K vs hg
  have hvs := List.Pairwise.sublist hsub hP
  have hvs2 := List.pairwise_map.mp hvs
  refine List.Pairwise.filterMap Out2Msg.toRow ?_ hvs2
  intro a b hab r1 hr1 r2 hr2
  cases a with
  | err m => simp [Out2Msg.toRow] at hr1
  | row ra =>
    cases b with
    | err m => simp [Out2Msg.toRow] at hr2
    | row rb =>
      simp only [Out2Msg.toRow, Option.mem_def, Option.some.injEq] at hr1 hr2
      subst hr1
      subst hr2
      exact hab _ _ rfl rfl rfl

/-- C7: for every (city, year) group, the sequence of final temperature
rows emitted for that group is strictly increasing in month value.  First
conjunct: the formatter sorts the group's records by month ascending, and
a group with pairwise-distinct months yields a strict chain.  Second
conjunct: every group the pipeline actually builds in stage 2 has
pairwise-distinct months (distinct stage-1 keys with the same city and
year carry distinct months), so each group's emitted row sequence is
strictly increasing unconditionally. -/
theorem c7_final_rows_sorted :
    (∀ (key : PyStr) (vs : List Out2Msg), key ≠ sERROR →
      (vs.filterMap Out2Msg.toRow).Pairwise (fun a b => a.month ≠ b.month) →
      List.Chain' (fun a b => a.month < b.month)
        (reducer_final_output key vs)) ∧
    (∀ (lines : List PyStr) (K : PyStr) (vs : List Out2Msg),
      (K, vs) ∈ groupByKey ((tempStage1 lines).flatMap
        (fun p => mapper_format_output p.1 p.2)) →
      List.Chain' (fun a b => a.month < b.month)
        (reducer_final_output K vs)) := by
  constructor
  · intro key vs hkey hd
    exact reducer_final_output_sorted key vs hkey hd
  · intro lines K vs hg
    by_cases hK : K = sERROR
    · rw [hK, reducer_final_output_err]
      exact List.chain'_nil
    · exact reducer_final_output_sorted K vs hK
        (tempStage2_group_months lines K vs hg)

/-- C7 witness: a group with months 7 and 3. -/
theorem c7_witness :
    List.Chain' (fun a b => a.month < b.month)
      (reducer_final_output "Bogota_2023".data
        [Out2Msg.row ⟨"Bogota".data, 2023, 7, "July".data, ⟨[], 0, 0, 0, 0, 0, 0⟩⟩,
          Out2Msg.row ⟨"Bogota".data, 2023, 3, "March".data, ⟨[], 0, 0, 0, 0, 0, 0⟩⟩]) :=
  c7_final_rows_sorted.1 _ _ (by decide) (by decide)


theorem get_season_label (m : ℕ) :
    get_season m = "Verano".data ∨ get_season m = "Transición".data ∨
    get_season m = "Invierno".data ∨ get_season m = "Lluvias_Tardías".data := by
  unfold get_season
  split
  · exact Or.inl rfl
  · split
    · exact Or.inr (Or.inl rfl)
    · split
      · exact Or.inr (Or.inr (Or.inl rfl))
      · exact Or.inr (Or.inr (Or.inr rfl))

theorem season_tail_inj :
    ∀ s1 s2 ys1 ys2 : List Char, '_' ∉ ys1 → '_' ∉ ys2 →
    (s1 = "Verano".data ∨ s1 = "Transición".data ∨ s1 = "Invierno".data ∨
      s1 = "Lluvias_Tardías".data) →
    (s2 = "Verano".data ∨ s2 = "Transición".data ∨ s2 = "Invierno".data ∨
      s2 = "Lluvias_Tardías".data) →
    s1 ++ '_' :: ys1 = s2 ++ '_' :: ys2 → s1 = s2 ∧ ys1 = ys2 := by
  have hLT : "Lluvias_Tardías".data =
      "Lluvias".data ++ '_' :: "Tardías".data := by decide
  intro s1 s2 ys1 ys2 hy1 hy2 hs1 hs2 he
  rcases hs1 with rfl | rfl | rfl | rfl <;> rcases hs2 with rfl | rfl | rfl | rfl
  · obtain ⟨h1, h2⟩ :=
      append_sep_inj "Verano".data "Verano".data ys1 ys2 (by decide) (by decide) he
    exact ⟨rfl, h2⟩
  · obtain ⟨h1, _⟩ :=
      append_sep_inj "Verano".data "Transición".data ys1 ys2 (by decide) (by decide) he
    exact absurd h1 (by decide)
  · obtain ⟨h1, _⟩ :=
      append_sep_inj "Verano".data "Invierno".data ys1 ys2 (by decide) (by decide) he
    exact absurd h1 (by decide)
  · rw [hLT] at he
    simp only [List.append_assoc, List.cons_append] at he
    obtain ⟨h1, _⟩ := append_sep_inj "Verano".data "Lluvias".data ys1
      ("Tardías".data ++ '_' :: ys2) (by decide) (by decide) he
    exact absurd h1 (by decide)
  · obtain ⟨h1, _⟩ :=
      append_sep_inj "Transición".data "Verano".data ys1 ys2 (by decide) (by decide) he
    exact absurd h1 (by decide)
  · obtain ⟨h1, h2⟩ :=
      append_sep_inj "Transición".data "Transición".data ys1 ys2 (by decide) (by decide) he
    exact ⟨rfl, h2⟩
  · obtain ⟨h1, _⟩ :=
      append_sep_inj "Transición".data "Invierno".data ys1 ys2 (by decide) (by decide) he
    exact absurd h1 (by decide)
  · rw [hLT] at he
    simp only [List.append_assoc, List.cons_append] at he
    obtain ⟨h1, _⟩ := append_sep_inj "Transición".data "Lluvias".data ys1
      ("Tardías".data ++ '_' :: ys2) (by decide) (by decide) he
    exact absurd h1 (by decide)
  · obtain ⟨h1, _⟩ :=
      append_sep_inj "Invierno".data "Verano".data ys1 ys2 (by decide) (by decide) he
    exact absurd h1 (by decide)
  · obtain ⟨h1, _⟩ :=
      append_sep_inj "Invierno".data "Transición".data ys1 ys2 (by decide) (by decide) he
    exact absurd h1 (by decide)
  · obtain ⟨h1, h2⟩ :=
      append_sep_inj "Invierno".data "Invierno".data ys1 ys2 (by decide) (by decide) he
    exact ⟨rfl, h2⟩
  · rw [hLT] at he
    simp only [List.append_assoc, List.cons_append] at he
    obtain ⟨h1, _⟩ := append_sep_inj "Invierno".data "Lluvias".data ys1
      ("Tardías".data ++ '_' :: ys2) (by decide) (by decide) he
    exact absurd h1 (by decide)
  · rw [hLT] at he
    simp only [List.append_assoc, List.cons_append] at he
    obtain ⟨h1, _⟩ := append_sep_inj "Lluvias".data "Verano".data
      ("Tardías".data ++ '_' :: ys1) ys2 (by decide) (by decide) he
    exact absurd h1 (by decide)
  · rw [hLT] at he
    simp only [List.append_assoc, List.cons_append] at he
    obtain ⟨h1, _⟩ := append_sep_inj "Lluvias".data "Transición".data
      ("Tardías".data ++ '_' :: ys1) ys2 (by decide) (by decide) he
    exact absurd h1 (by decide)
  · rw [hLT] at he
    simp only [List.append_assoc, List.cons_append] at he
    obtain ⟨h1, _⟩ := append_sep_inj "Lluvias".data "Invierno".data
      ("Tardías".data ++ '_' :: ys1) ys2 (by decide) (by decide) he
    exact absurd h1 (by decide)
  · rw [hLT] at he
    simp only [List.append_assoc, List.cons_append] at he
    obtain ⟨h1, h2⟩ := append_sep_inj "Lluvias".data "Lluvias".data
      ("Tardías".data ++ '_' :: ys1) ("Tardías".data ++ '_' :: ys2)
      (by decide) (by decide) he
    obtain ⟨h3, h4⟩ :=
      append_sep_inj "Tardías".data "Tardías".data ys1 ys2 (by decide) (by decide) h2
    exact ⟨rfl, h4⟩

theorem mapper_add_season_enh_det (key : PyStr) (v : Prec2Msg) (K : PyStr)
    (e : EnhancedStat) (h : (K, Enh2Msg.enh e) ∈ mapper_add_season key v) :
    ∃ c ys ms m, pysplit '_' key = [c, ys, ms] ∧
      K = c ++ '_' :: (get_season m ++ '_' :: ys) ∧
      e.city = c ∧ e.season = get_season m ∧ parseDec ys = some e.year := by
  unfold mapper_add_season at h
  by_cases hkey : key = sERROR
  · rw [if_pos hkey] at h
    simp at h
  · rw [if_neg hkey] at h
    cases v with
    | err m => simp at h
    | stat d =>
      rcases hsp : pysplit '_' key with _ | ⟨c, _ | ⟨ys, _ | ⟨ms, _ | ⟨d4, rest⟩⟩⟩⟩ <;>
        rw [hsp] at h <;> dsimp only at h
      · simp at h
      · simp at h
      · simp at h
      · cases hd1 : parseDec ms with
        | none => rw [hd1] at h; simp at h
        | some m =>
          rw [hd1] at h
          cases hd2 : parseDec ys with
          | none => rw [hd2] at h; simp at h
          | some y =>
            rw [hd2] at h
            dsimp only at h
            simp only [List.mem_singleton] at h
            injection h with hK hv
            injection hv with he
            refine ⟨c, ys, ms, m, rfl, hK, ?_, ?_, ?_⟩
            · rw [he]
            · rw [he]
            · rw [he]
              exact hd2
      · simp at h

theorem precStage2_group_agree (pairs : List (PyStr × Prec2Msg)) (K : PyStr)
    (vs : List Enh2Msg)
    (hg : (K, vs) ∈ groupByKey (pairs.flatMap
      (fun p => mapper_add_season p.1 p.2))) :
    ∀ a ∈ vs.filterMap Enh2Msg.toEnh, ∀ b ∈ vs.filterMap Enh2Msg.toEnh,
      a.city = b.city ∧ a.year = b.year ∧ a.season = b.season := by
  intro a ha b hb
  obtain ⟨va, hva, hfa⟩ := List.mem_filterMap.mp ha
  obtain ⟨vb, hvb, hfb⟩ := List.mem_filterMap.mp hb
  have hea : va = Enh2Msg.enh a := by
    cases va with
    | enh e => simp only [Enh2Msg.toEnh, Option.some.injEq] at hfa; rw [hfa]
    | err m => simp [Enh2Msg.toEnh] at hfa
  have heb : vb = Enh2Msg.enh b := by
    cases vb with
    | enh e => simp only [Enh2Msg.toEnh, Option.some.injEq] at hfb; rw [hfb]
    | err m => simp [Enh2Msg.toEnh] at hfb
  subst hea
  subst heb
  obtain ⟨p, _, hma⟩ := List.mem_flatMap.mp
    (mem_of_mem_groupByKey _ K vs _ hg hva)
  obtain ⟨q, _, hmb⟩ := List.mem_flatMap.mp
    (mem_of_mem_groupByKey _ K vs _ hg hvb)
  obtain ⟨ca, ysa, msa, ma, hspa, hKa, hca, hsa, hya⟩ :=
    mapper_add_season_enh_det p.1 p.2 K a hma
  obtain ⟨cb, ysb, msb, mb, hspb, hKb, hcb, hsb, hyb⟩ :=
    mapper_add_season_enh_det q.1 q.2 K b hmb
  have hfca : '_' ∉ ca :=
    mem_pysplit_not_sep '_' p.1 ca (by rw [hspa]; exact List.mem_cons_self _ _)
  have hfcb : '_' ∉ cb :=
    mem_pysplit_not_sep '_' q.1 cb (by rw [hspb]; exact List.mem_cons_self _ _)
  have hfya : '_' ∉ ysa :=
    mem_pysplit_not_sep '_' p.1 ysa
      (by rw [hspa]; exact List.mem_cons_of_mem _ (List.mem_cons_self _ _))
  have hfyb : '_' ∉ ysb :=
    mem_pysplit_not_sep '_' q.1 ysb
      (by rw [hspb]; exact List.mem_cons_of_mem _ (List.mem_cons_self _ _))
  have hKK := hKa.symm.trans hKb
  obtain ⟨hc, htail⟩ := append_sep_inj ca cb (get_season ma ++ '_' :: ysa)
    (get_season mb ++ '_' :: ysb) hfca hfcb hKK
  obtain ⟨hs, hys⟩ := season_tail_inj (get_season ma) (get_season mb) ysa ysb
    hfya hfyb (get_season_label ma) (get_season_label mb) htail
  refine ⟨?_, ?_, ?_⟩
  · rw [hca, hcb, hc]
  · have hya2 := hya
    rw [hys, hyb] at hya2
    injection hya2 with hy
    exact hy.symm
  · rw [hsa, hsb, hs]

/-- C6: every reducer is order-independent: for every key and every list of
contributing values, applying the monthly temperature reducer, the monthly
precipitation reducer, or the seasonal precipitation reducer to any
permutation of that list yields exactly the same output record.  (For the
seasonal reducer in isolation, the stated side condition is that values
contributing to one key all carry the same city, year and season; the
fourth conjunct discharges that condition for every group the pipeline
actually builds — the seasonal key determines those fields — so the
seasonal reducer is unconditionally order-independent on real groups.) -/
theorem c6_reducers_order_independent :
    (∀ (key : PyStr) (vs vs' : List TempMsg), List.Perm vs vs' →
      reducer_aggregate_temps key vs = reducer_aggregate_temps key vs') ∧
    (∀ (key : PyStr) (vs vs' : List ℚ), List.Perm vs vs' →
      reducer_monthly_totals key vs = reducer_monthly_totals key vs') ∧
    (∀ (key : PyStr) (vs vs' : List Enh2Msg), List.Perm vs vs' →
      (∀ a ∈ vs.filterMap Enh2Msg.toEnh, ∀ b ∈ vs.filterMap Enh2Msg.toEnh,
        a.city = b.city ∧ a.year = b.year ∧ a.season = b.season) →
      reducer_seasonal_analysis key vs = reducer_seasonal_analysis key vs') ∧
    (∀ (pairs : List (PyStr × Prec2Msg)) (K : PyStr)
        (vs vs' : List Enh2Msg),
      (K, vs) ∈ groupByKey (pairs.flatMap
        (fun p => mapper_add_season p.1 p.2)) →
      List.Perm vs vs' →
      reducer_seasonal_analysis K vs = reducer_seasonal_analysis K vs') :=
  ⟨fun key _ _ p => reducer_aggregate_temps_perm key p,
    fun key _ _ p => reducer_monthly_totals_perm key p,
    fun key _ _ p hag => reducer_seasonal_analysis_perm key p hag,
    fun pairs K vs _ hg p =>
      reducer_seasonal_analysis_perm K p (precStage2_group_agree pairs K vs hg)⟩

/-- C6 witness: each reducer applied to a two-element list and its swap;
the fourth conjunct applied to the concrete group that two stage-1 records
for (Bogota, 2023, 06) produce under the season remapper. -/
theorem c6_witness :
    reducer_aggregate_temps "Bogota_2023_06".data
        [TempMsg.data ⟨30, 20, 25, 1⟩, TempMsg.data ⟨28, 18, 23, 1⟩] =
      reducer_aggregate_temps "Bogota_2023_06".data
        [TempMsg.data ⟨28, 18, 23, 1⟩, TempMsg.data ⟨30, 20, 25, 1⟩] ∧
    reducer_monthly_totals "Bogota_2023_06".data [0, 5] =
      reducer_monthly_totals "Bogota_2023_06".data [5, 0] ∧
    reducer_seasonal_analysis "Bogota_Invierno_2023".data
        [Enh2Msg.enh ⟨"Bogota".data, 2023, 6, "Invierno".data, ⟨5, 2, 3, 1, 4⟩⟩,
          Enh2Msg.enh ⟨"Bogota".data, 2023, 7, "Invierno".data, ⟨7, 3, 4, 2, 5⟩⟩] =
      reducer_seasonal_analysis "Bogota_Invierno_2023".data
        [Enh2Msg.enh ⟨"Bogota".data, 2023, 7, "Invierno".data, ⟨7, 3, 4, 2, 5⟩⟩,
          Enh2Msg.enh ⟨"Bogota".data, 2023, 6, "Invierno".data, ⟨5, 2, 3, 1, 4⟩⟩] ∧
    reducer_seasonal_analysis "Bogota_Invierno_2023".data
        [Enh2Msg.enh ⟨"Bogota".data, 2023, 6, "Invierno".data, ⟨5, 2, 3, 1, 4⟩⟩,
          Enh2Msg.enh ⟨"Bogota".data, 2023, 6, "Invierno".data, ⟨7, 3, 4, 2, 5⟩⟩] =
      reducer_seasonal_analysis "Bogota_Invierno_2023".data
        [Enh2Msg.enh ⟨"Bogota".data, 2023, 6, "Invierno".data, ⟨7, 3, 4, 2, 5⟩⟩,
          Enh2Msg.enh ⟨"Bogota".data, 2023, 6, "Invierno".data, ⟨5, 2, 3, 1, 4⟩⟩] :=
  ⟨c6_reducers_order_independent.1 _ _ _ (List.Perm.swap _ _ []),
    c6_reducers_order_independent.2.1 _ _ _ (List.Perm.swap _ _ []),
    c6_reducers_order_independent.2.2.1 _ _ _ (List.Perm.swap _ _ [])
      (by decide),
    c6_reducers_order_independent.2.2.2
      [("Bogota_2023_06".data, Prec2Msg.stat ⟨5, 2, 3, 1, 4⟩),
        ("Bogota_2023_06".data, Prec2Msg.stat ⟨7, 3, 4, 2, 5⟩)]
      "Bogota_Invierno_2023".data _ _ (by decide) (List.Perm.swap _ _ [])⟩
